import Mathlib

/-!
Verification development for the onboarding-analytics-dashboard repository.

The repository's review-and-reconciliation engine lives in
`src/accuracy_metrics.py` (class `AccuracyCalculator`) and
`src/ai_integration.py` (class `O3AIIntegration`).  This file shallowly embeds
the data model and the operations of those modules:

* LLM adjudication results are Python dicts produced by `json.loads`; they are
  modelled by the inductive type `Json` together with accessors mirroring
  Python's `dict.get` and Python truthiness.
* The CSV dataframe is modelled by `List Row`, one `Row` per patient, with the
  four columns the engine reads (`Patient ID`, `Match Result`, `SMC Coded`,
  `Rapidclaims Codes`), the two code columns already `fillna('')`-normalised
  as in `AccuracyCalculator.__init__`.
* Computations that can raise a Python exception (`ZeroDivisionError`) are
  modelled with `Option`, `none` meaning the call raises.
* Python `float` scores are modelled by `ℚ`; the numeric literals `0.8`,
  `0.2`, `0.5` of the source become `4/5`, `1/5`, `1/2`.  No claim exercises
  binary floating-point rounding.
-/

namespace Onboard

/-- Model of a Python JSON value as produced by `json.loads`.  Numbers are
modelled by `ℚ` (the source only ever compares and stores scores; no claim
exercises binary floating-point behaviour). -/
inductive Json where
  | null : Json
  | bool (b : Bool) : Json
  | num (q : ℚ) : Json
  | str (s : String) : Json
  | arr (xs : List Json) : Json
  | obj (fields : List (String × Json)) : Json

mutual

/-- Structural (Python `==` / `!=`) equality on modelled JSON values. -/
def Json.beq : Json → Json → Bool
  | .null, .null => true
  | .bool a, .bool b => a == b
  | .num a, .num b => a == b
  | .str a, .str b => a == b
  | .arr a, .arr b => Json.beqList a b
  | .obj a, .obj b => Json.beqFields a b
  | _, _ => false

def Json.beqList : List Json → List Json → Bool
  | [], [] => true
  | x :: xs, y :: ys => Json.beq x y && Json.beqList xs ys
  | _, _ => false

def Json.beqFields : List (String × Json) → List (String × Json) → Bool
  | [], [] => true
  | (k1, v1) :: xs, (k2, v2) :: ys => k1 == k2 && Json.beq v1 v2 && Json.beqFields xs ys
  | _, _ => false

end

/-- `d.get(k)` on a Python dict: first binding of the key, `none` when the key
is absent or the value is not a dict at all. -/
def jget (j : Json) (k : String) : Option Json :=
  match j with
  | .obj fields => (fields.find? (fun p => p.1 == k)).map Prod.snd
  | _ => none

/-- `d.get(k, default)`. -/
def jgetD (j : Json) (k : String) (d : Json) : Json :=
  (jget j k).getD d

/-- Python `k in d` membership test on a dict. -/
def hasKey (j : Json) (k : String) : Bool :=
  (jget j k).isSome

/-- Python truthiness of a JSON value (`None`, `False`, `0`, `''`, `[]` and
`{}` are falsy). -/
def truthy : Json → Bool
  | .null => false
  | .bool b => b
  | .num q => q != 0
  | .str s => s != ""
  | .arr xs => !xs.isEmpty
  | .obj fields => !fields.isEmpty

/-- Python `str(...)` restricted to the value shapes the engine feeds it
(strings and integer patient identifiers).  Containers never reach `str` in
the modelled flows; they are given a placeholder image. -/
def pyStr : Json → String
  | .str s => s
  | .num q => if q.den = 1 then toString q.num else toString q
  | .bool b => cond b "True" "False"
  | .null => "None"
  | .arr _ => ""
  | .obj _ => ""

/-- A value fetched with default `[]`, iterated with `for`: only an actual
list yields elements.  (Feeding a non-list `analysis` to the Python loops
would raise or iterate nonsensically; no claim exercises that.) -/
def asArr : Json → List Json
  | .arr xs => xs
  | _ => []

/-! ### A strict JSON parser, modelling `json.loads`

The parser is executable and fuel-structured so that concrete inputs evaluate
by `rfl`.  It implements the strict JSON grammar: objects, arrays, strings
with escapes, numbers with optional sign / fraction / exponent, `true`,
`false`, `null`; duplicate object keys keep the first position and the last
value, as a Python dict does.  (`NaN`/`Infinity`, which CPython accepts as an
extension, are not modelled; no claim exercises them.) -/

def qChar : Char := Char.ofNat 34
def bsChar : Char := Char.ofNat 92
def lbraceChar : Char := Char.ofNat 123
def rbraceChar : Char := Char.ofNat 125

def isWsChar (c : Char) : Bool :=
  c = ' ' || c = '\t' || c = '\n' || c = '\r'

def skipWs : List Char → List Char
  | [] => []
  | c :: cs => if isWsChar c then skipWs cs else c :: cs

def hexVal (c : Char) : Option ℕ :=
  if '0' ≤ c ∧ c ≤ '9' then some (c.toNat - '0'.toNat)
  else if 'a' ≤ c ∧ c ≤ 'f' then some (c.toNat - 'a'.toNat + 10)
  else if 'A' ≤ c ∧ c ≤ 'F' then some (c.toNat - 'A'.toNat + 10)
  else none

def escChar (c : Char) : Option Char :=
  if c = qChar then some qChar
  else if c = bsChar then some bsChar
  else if c = '/' then some '/'
  else if c = 'b' then some (Char.ofNat 8)
  else if c = 'f' then some (Char.ofNat 12)
  else if c = 'n' then some '\n'
  else if c = 'r' then some '\r'
  else if c = 't' then some '\t'
  else none

/-- Parse the body of a JSON string (the opening quote already consumed),
returning the decoded characters and the remaining input. -/
def parseStrChars : ℕ → List Char → Option (List Char × List Char)
  | 0, _ => none
  | _, [] => none
  | fuel + 1, c :: cs =>
    if c = qChar then some ([], cs)
    else if c = bsChar then
      match cs with
      | [] => none
      | e :: r =>
        if e = 'u' then
          match r with
          | h1 :: h2 :: h3 :: h4 :: r2 =>
            match hexVal h1, hexVal h2, hexVal h3, hexVal h4 with
            | some a, some b, some c3, some d =>
              (parseStrChars fuel r2).map
                (fun p => (Char.ofNat (((a * 16 + b) * 16 + c3) * 16 + d) :: p.1, p.2))
            | _, _, _, _ => none
          | _ => none
        else
          match escChar e with
          | some ec => (parseStrChars fuel r).map (fun p => (ec :: p.1, p.2))
          | none => none
    else if c.toNat < 32 then none
    else (parseStrChars fuel cs).map (fun p => (c :: p.1, p.2))

def takeDigits : List Char → List ℕ × List Char
  | [] => ([], [])
  | c :: cs =>
    if '0' ≤ c ∧ c ≤ '9' then
      let p := takeDigits cs
      ((c.toNat - '0'.toNat) :: p.1, p.2)
    else ([], c :: cs)

def digitsToNat (ds : List ℕ) : ℕ :=
  ds.foldl (fun acc d => acc * 10 + d) 0

/-- Parse a strict JSON number: optional minus, integer part without leading
zeros, optional fraction, optional exponent. -/
def parseNum (cs : List Char) : Option (ℚ × List Char) :=
  let (neg, cs1) := match cs with
    | '-' :: r => (true, r)
    | _ => (false, cs)
  let (ints, cs2) := takeDigits cs1
  if ints = [] then none
  else if ints.length > 1 ∧ ints.head? = some 0 then none
  else
    let (frac, cs3) := match cs2 with
      | '.' :: r =>
        let p := takeDigits r
        if p.1 = [] then (none, cs2) else (some p.1, p.2)
      | _ => (none, cs2)
    match frac, cs2 with
    | none, '.' :: _ => none
    | _, _ =>
      let base : ℚ := (digitsToNat ints : ℚ) +
        (match frac with
         | some ds => (digitsToNat ds : ℚ) / ((10 : ℚ) ^ ds.length)
         | none => 0)
      let (expo, cs4) : Option (Bool × ℕ) × List Char := match cs3 with
        | e :: r =>
          if e = 'e' ∨ e = 'E' then
            let (esign, r2) := match r with
              | '-' :: r3 => (true, r3)
              | '+' :: r3 => (false, r3)
              | _ => (false, r)
            let p := takeDigits r2
            if p.1 = [] then (none, cs3) else (some (esign, digitsToNat p.1), p.2)
          else (none, cs3)
        | _ => (none, cs3)
      match expo, cs3 with
      | none, e :: _ =>
        if e = 'e' ∨ e = 'E' then none
        else some ((if neg then -base else base), cs3)
      | none, _ => some ((if neg then -base else base), cs3)
      | some (esign, k), _ =>
        let scaled := if esign then base / ((10 : ℚ) ^ k) else base * ((10 : ℚ) ^ k)
        some ((if neg then -scaled else scaled), cs4)

/-- Add a parsed object member the way Python's dict builder does: a duplicate
key keeps its first position but takes the later value. -/
def objCons (k : String) (v : Json) (fields : List (String × Json)) :
    List (String × Json) :=
  match fields.find? (fun p => p.1 == k) with
  | some p => (k, p.2) :: fields.filter (fun q => q.1 != k)
  | none => (k, v) :: fields

/-- Recursive descent for one JSON value.  Arrays and objects loop by
re-entering the parser on the re-bracketed remainder, which keeps the
recursion structural in the fuel. -/
def parseVal : ℕ → List Char → Option (Json × List Char)
  | 0, _ => none
  | fuel + 1, cs0 =>
    match skipWs cs0 with
    | [] => none
    | c :: rest =>
      if c = qChar then
        (parseStrChars (rest.length + 1) rest).map (fun p => (Json.str ⟨p.1⟩, p.2))
      else if c = lbraceChar then
        match skipWs rest with
        | [] => none
        | d :: r2 =>
          if d = rbraceChar then some (Json.obj [], r2)
          else if d = qChar then
            match parseStrChars (r2.length + 1) r2 with
            | none => none
            | some (kcs, r3) =>
              match skipWs r3 with
              | ':' :: r4 =>
                match parseVal fuel r4 with
                | none => none
                | some (v, r5) =>
                  match skipWs r5 with
                  | ',' :: r6 =>
                    (match skipWs r6 with
                     | e :: _ =>
                       if e = rbraceChar then none
                       else
                         match parseVal fuel (lbraceChar :: r6) with
                         | some (Json.obj fs, r7) => some (Json.obj (objCons ⟨kcs⟩ v fs), r7)
                         | _ => none
                     | [] => none)
                  | e :: r6 =>
                    if e = rbraceChar then some (Json.obj [(⟨kcs⟩, v)], r6) else none
                  | [] => none
              | _ => none
          else none
      else if c = '[' then
        match skipWs rest with
        | [] => none
        | d :: _ =>
          if d = ']' then some (Json.arr [], (skipWs rest).tail)
          else
            match parseVal fuel rest with
            | none => none
            | some (v, r3) =>
              match skipWs r3 with
              | ',' :: r4 =>
                (match skipWs r4 with
                 | e :: _ =>
                   if e = ']' then none
                   else
                     match parseVal fuel ('[' :: r4) with
                     | some (Json.arr vs, r5) => some (Json.arr (v :: vs), r5)
                     | _ => none
                 | [] => none)
              | ']' :: r4 => some (Json.arr [v], r4)
              | _ => none
      else if c = 't' then
        match rest with
        | 'r' :: 'u' :: 'e' :: r => some (Json.bool true, r)
        | _ => none
      else if c = 'f' then
        match rest with
        | 'a' :: 'l' :: 's' :: 'e' :: r => some (Json.bool false, r)
        | _ => none
      else if c = 'n' then
        match rest with
        | 'u' :: 'l' :: 'l' :: r => some (Json.null, r)
        | _ => none
      else
        (parseNum (c :: rest)).map (fun p => (Json.num p.1, p.2))

/-- Model of `json.loads`: parse one value and require only trailing
whitespace, `none` meaning `json.JSONDecodeError`. -/
def jsonLoads (s : String) : Option Json :=
  match parseVal (2 * s.length + 2) s.data with
  | some (v, rest) => if skipWs rest = [] then some v else none
  | none => none

/-! ### Python string helpers

`str.strip` and `str.split(',')` are re-implemented over `List Char` (rather
than through `String.trim`/`String.splitOn`) so that concrete inputs evaluate
inside the kernel; the semantics follow Python (`strip` removes space, tab,
newline, carriage return, vertical tab and form feed). -/

def isPyWs (c : Char) : Bool :=
  c = ' ' || c = '\t' || c = '\n' || c = '\r' || c = Char.ofNat 11 || c = Char.ofNat 12

def dropLeadWs : List Char → List Char
  | [] => []
  | c :: cs => if isPyWs c then dropLeadWs cs else c :: cs

/-- Python `str.strip()`. -/
def pyStrip (s : String) : String :=
  ⟨(dropLeadWs (dropLeadWs s.data).reverse).reverse⟩

/-- Python `str.split(',')` (as used by `parse_codes`), producing the chunks
between commas. -/
def splitComma : List Char → List (List Char)
  | [] => [[]]
  | c :: cs =>
    match splitComma cs with
    | [] => [[]]
    | g :: gs => if c = ',' then [] :: g :: gs else (c :: g) :: gs

/-! ### The dataframe model and `parse_codes`

`AccuracyCalculator.__init__` loads the CSV and fills the two code columns'
NaNs with `''`; a `Row` holds the four columns the engine reads, with that
normalisation already applied (so a missing code cell is the empty string). -/

structure Row where
  patientId : String
  matchResult : String
  smcCoded : String
  rapidclaimsCodes : String
  deriving DecidableEq

/-- `AccuracyCalculator.parse_codes`: split the cell on commas, strip each
code, drop empties, and return the set. -/
def parse_codes (s : String) : Finset String :=
  if s = "" then ∅
  else ((((splitComma s.data).map (fun cs => pyStrip ⟨cs⟩)).filter
    (fun c => c ≠ "")).toFinset)

def sutherland_set (r : Row) : Finset String := parse_codes r.smcCoded

def ai_set (r : Row) : Finset String := parse_codes r.rapidclaimsCodes

def total_sutherland_codes (df : List Row) : ℕ :=
  (df.map (fun r => (sutherland_set r).card)).sum

def total_ai_codes (df : List Row) : ℕ :=
  (df.map (fun r => (ai_set r).card)).sum

def total_missed_codes (df : List Row) : ℕ :=
  (df.map (fun r => (sutherland_set r \ ai_set r).card)).sum

def total_extra_codes (df : List Row) : ℕ :=
  (df.map (fun r => (ai_set r \ sutherland_set r).card)).sum

def total_correct_codes (df : List Row) : ℕ :=
  (df.map (fun r => (sutherland_set r ∩ ai_set r).card)).sum

/-- Number of rows whose `Match Result` column equals the given label. -/
def count_match (df : List Row) (label : String) : ℕ :=
  df.countP (fun r => r.matchResult == label)

/-! ### `calculate_original_accuracy` -/

/-- The `AccuracyMetrics` dataclass. -/
structure AccuracyMetrics where
  total_patients : ℕ
  complete_matches : ℕ
  partial_matches : ℕ
  no_matches : ℕ
  complete_match_rate : ℚ
  partial_match_rate : ℚ
  no_match_rate : ℚ
  total_sutherland_codes : ℕ
  total_ai_codes : ℕ
  total_missed_codes : ℕ
  total_extra_codes : ℕ
  code_level_accuracy : ℚ
  important_missed_codes : ℕ
  unimportant_missed_codes : ℕ
  important_code_accuracy : ℚ
  unimportant_code_accuracy : ℚ

/-- `AccuracyCalculator.calculate_original_accuracy`.  `none` models a raised
`ZeroDivisionError`: the chart rates divide by `total_patients`, and
`code_level_accuracy` divides by `total_ai_codes` whenever the source guard
`total_sutherland_codes > 0` lets the division run. -/
def calculate_original_accuracy (df : List Row) : Option AccuracyMetrics :=
  let total_patients := df.length
  let tS := total_sutherland_codes df
  let tA := total_ai_codes df
  if total_patients = 0 then none
  else if 0 < tS ∧ tA = 0 then none
  else some
    { total_patients := total_patients
      complete_matches := count_match df "Complete Match"
      partial_matches := count_match df "Partial Match"
      no_matches := count_match df "No Match"
      complete_match_rate := (count_match df "Complete Match" : ℚ) / total_patients
      partial_match_rate := (count_match df "Partial Match" : ℚ) / total_patients
      no_match_rate := (count_match df "No Match" : ℚ) / total_patients
      total_sutherland_codes := tS
      total_ai_codes := tA
      total_missed_codes := total_missed_codes df
      total_extra_codes := total_extra_codes df
      code_level_accuracy :=
        if 0 < tS then ((tA : ℚ) - (total_missed_codes df : ℚ)) / (tA : ℚ) else 0
      important_missed_codes := 0
      unimportant_missed_codes := 0
      important_code_accuracy := 0
      unimportant_code_accuracy := 0 }

/-! ### The partial-match reconciliation engine
(`calculate_post_ai_review_accuracy`) -/

/-- Strip the characters the source removes before re-parsing an error
result's raw text: `re.sub(r'[\x00-\x1f\x7f-\x9f]', '', raw_response)`. -/
def strip_control_chars (s : String) : String :=
  ⟨s.data.filter (fun c => !(c.toNat ≤ 31 || (127 ≤ c.toNat && c.toNat ≤ 159)))⟩

/-- Lightweight recovery of an error-marked review (source lines 117-136):
if a non-empty raw text is attached, strip control characters, parse it, and
use the parsed object only when it carries an `analysis` key.  (A non-string
truthy `raw_response` would make `re.sub` raise in Python; no claim exercises
that shape.) -/
def recover_review (review : Json) : Option Json :=
  match jget review "raw_response" with
  | some (Json.str s) =>
    if s ≠ "" then
      match jsonLoads (strip_control_chars s) with
      | some parsed => if hasKey parsed "analysis" then some parsed else none
      | none => none
    else none
  | _ => none

/-- The review actually processed for a list element: an error-marked review
is replaced by its recovered form or skipped (`continue`). -/
def effective_review (review : Json) : Option Json :=
  if hasKey review "error" then recover_review review else some review

/-- `review.get('coding_accuracy_score', {}).get(key, 0.5)`.  A present but
non-numeric score field is given the default (Python would raise on the later
float comparison; no claim exercises that shape). -/
def scoreOf (review : Json) (k : String) : ℚ :=
  match jget (jgetD review "coding_accuracy_score" (Json.obj [])) k with
  | some (Json.num q) => q
  | _ => 1/2

/-- Per-patient counters accumulated over one review's `analysis` list, plus
the `corrected_codes` assignments made along the way (kept in order, applied
to the shared dict afterwards). -/
structure CodeTally where
  total : ℕ
  errors : ℕ
  corrections : ℕ
  extra : ℕ
  pending : List (Json × Json)

/-- One iteration of the per-code loop (source lines 163-199): classify the
discrepancy and update the per-patient counters. -/
def analyze_code_entry (t : CodeTally) (ca : Json) : CodeTally :=
  let sc := jgetD ca "sutherland_code" Json.null
  let ac := jgetD ca "ai_code" Json.null
  let isS := truthy (jgetD ca "is_sutherland_correct" (Json.bool false))
  let isA := truthy (jgetD ca "is_ai_correct" (Json.bool false))
  let t := { t with total := t.total + 1 }
  if truthy sc ∧ ¬ truthy ac then
    if ¬ isS then
      { t with errors := t.errors + 1
               pending := t.pending ++ [(sc, Json.str "should_not_code")] }
    else t
  else if truthy ac ∧ ¬ truthy sc then
    let t := { t with extra := t.extra + 1 }
    if isA then
      { t with corrections := t.corrections + 1
               pending := t.pending ++ [(ac, Json.str "should_code")] }
    else t
  else if truthy sc ∧ truthy ac ∧ ¬ (Json.beq sc ac) then
    if ¬ isS ∧ isA then
      { t with errors := t.errors + 1
               corrections := t.corrections + 1
               pending := t.pending ++ [(sc, ac)] }
    else t
  else t

/-- The whole `analysis` loop for one usable review. -/
def review_tally (r : Json) : CodeTally :=
  (asArr (jgetD r "analysis" (Json.arr []))).foldl analyze_code_entry ⟨0, 0, 0, 0, []⟩

/-- Which of the three promotion rules fired, if any (the formatted reason
strings of the source are abstracted to their rule identity). -/
inductive PromoReason where
  | aiMoreAccurate : PromoReason
  | moreCorrections : PromoReason
  | lowErrorRate : PromoReason
  deriving DecidableEq

/-- The promotion decision (source lines 205-221), in source order:
(i) `ai_score > 0.8 and ai_score > sutherland_score`; else
(ii) `patient_ai_corrections > patient_sutherland_errors`; else
(iii) `patient_total_codes > 0 and patient_sutherland_errors /
patient_total_codes < 0.2`. -/
def promo_decision (ai_score sutherland_score : ℚ) (corrections errors total : ℕ) :
    Option PromoReason :=
  if 4/5 < ai_score ∧ sutherland_score < ai_score then some PromoReason.aiMoreAccurate
  else if errors < corrections then some PromoReason.moreCorrections
  else if 0 < total ∧ (errors : ℚ) / (total : ℚ) < 1/5 then some PromoReason.lowErrorRate
  else none

/-- One entry of `changes_made`. -/
structure Change where
  patient_id : String
  original_match : String
  new_match : String
  reason : PromoReason
  sutherland_errors : ℕ
  ai_corrections : ℕ
  extra_codes : ℕ
  sutherland_score : ℚ
  ai_score : ℚ

/-- `corrected_codes[k] = v` on a Python dict: an existing key keeps its
position and takes the new value, a new key is appended. -/
def dictInsert (d : List (Json × Json)) (k v : Json) : List (Json × Json) :=
  if d.any (fun p => Json.beq p.1 k) then
    d.map (fun p => if Json.beq p.1 k then (p.1, v) else p)
  else d ++ [(k, v)]

/-- `reviewed_df.loc[idx, 'Match Result'] = 'Complete Match'` on one row. -/
def rowPromote (r : Row) : Row :=
  { r with matchResult := "Complete Match" }

/-- Set the `Match Result` of the row at the given index. -/
def setMatch : List Row → ℕ → List Row
  | [], _ => []
  | r :: rest, 0 => rowPromote r :: rest
  | r :: rest, n + 1 => r :: setMatch rest n

/-- The mutable state threaded through the review loop of
`calculate_post_ai_review_accuracy`. -/
structure ReviewState where
  reviewed_df : List Row
  changes_made : List Change
  partial_to_complete : ℕ
  sutherland_errors : ℕ
  total_reviewed_codes : ℕ
  ai_corrections : ℕ
  extra_codes_by_ai : ℕ
  corrected_codes : List (Json × Json)

def initState (df : List Row) : ReviewState :=
  ⟨df, [], 0, 0, 0, 0, 0, []⟩

/-- The body of the review loop after error recovery (source lines 138-236):
resolve the patient, tally the analysis entries, and promote when a rule
fires. -/
def process_usable (st : ReviewState) (r : Json) : ReviewState :=
  let pid := jgetD r "patient_id" Json.null
  if truthy pid then
    match (st.reviewed_df.map Row.patientId).findIdx? (fun s => s == pyStr pid) with
    | some idx =>
      let t := review_tally r
      let sScore := scoreOf r "sutherland_score"
      let aScore := scoreOf r "ai_score"
      let st1 : ReviewState :=
        { st with
          total_reviewed_codes := st.total_reviewed_codes + t.total
          sutherland_errors := st.sutherland_errors + t.errors
          ai_corrections := st.ai_corrections + t.corrections
          extra_codes_by_ai := st.extra_codes_by_ai + t.extra
          corrected_codes := t.pending.foldl (fun d p => dictInsert d p.1 p.2) st.corrected_codes }
      match promo_decision aScore sScore t.corrections t.errors t.total with
      | some why =>
        { st1 with
          changes_made := st1.changes_made ++
            [{ patient_id := pyStr pid
               original_match := "Partial Match"
               new_match := "Complete Match (Post-Review)"
               reason := why
               sutherland_errors := t.errors
               ai_corrections := t.corrections
               extra_codes := t.extra
               sutherland_score := sScore
               ai_score := aScore }]
          reviewed_df := setMatch st1.reviewed_df idx
          partial_to_complete := st1.partial_to_complete + 1 }
      | none => st1
    | none => st
  else st

/-- One iteration of the review loop, error recovery included. -/
def process_review (st : ReviewState) (review : Json) : ReviewState :=
  match effective_review review with
  | none => st
  | some r => process_usable st r

/-- The whole review loop. -/
def runReviews (df : List Row) (reviews : List Json) : ReviewState :=
  reviews.foldl process_review (initState df)

/-- The dictionary returned by `calculate_post_ai_review_accuracy`, flattened
(the nested presentation dicts carry exactly these values). -/
structure PostReviewResult where
  complete_matches : ℕ
  partial_matches : ℕ
  no_matches : ℕ
  complete_match_rate : ℚ
  partial_match_rate : ℚ
  no_match_rate : ℚ
  partial_to_complete_conversions : ℕ
  accuracy_improvement : ℚ
  total_reviewed_codes : ℕ
  sutherland_errors : ℕ
  manual_coding_accuracy : ℚ
  ai_corrections : ℕ
  extra_codes_by_ai : ℕ
  corrected_codes : List (Json × Json)
  changes_made : List Change
  reviewed_dataframe : List Row

/-- `AccuracyCalculator.calculate_post_ai_review_accuracy`.  `none` models a
raised exception: the chart rates divide by `len(reviewed_df)`, and the
`improvements` entry re-runs `calculate_original_accuracy`, which can itself
raise. -/
def calculate_post_ai_review_accuracy (df : List Row) (reviews : List Json) :
    Option PostReviewResult :=
  let st := runReviews df reviews
  if st.reviewed_df.length = 0 then none
  else
    match calculate_original_accuracy df with
    | none => none
    | some orig =>
      let n : ℚ := st.reviewed_df.length
      let nc := count_match st.reviewed_df "Complete Match"
      let np := count_match st.reviewed_df "Partial Match"
      let nn := count_match st.reviewed_df "No Match"
      some
        { complete_matches := nc
          partial_matches := np
          no_matches := nn
          complete_match_rate := (nc : ℚ) / n
          partial_match_rate := (np : ℚ) / n
          no_match_rate := (nn : ℚ) / n
          partial_to_complete_conversions := st.partial_to_complete
          accuracy_improvement := ((nc : ℚ) - (orig.complete_matches : ℚ)) / n
          total_reviewed_codes := st.total_reviewed_codes
          sutherland_errors := st.sutherland_errors
          manual_coding_accuracy :=
            if 0 < st.total_reviewed_codes then
              ((st.total_reviewed_codes : ℚ) - (st.sutherland_errors : ℚ)) /
                (st.total_reviewed_codes : ℚ)
            else 1
          ai_corrections := st.ai_corrections
          extra_codes_by_ai := st.extra_codes_by_ai
          corrected_codes := st.corrected_codes
          changes_made := st.changes_made
          reviewed_dataframe := st.reviewed_df }

/-! ### Decision-only view of the review loop (used to reason about the
match-category state machine) -/

/-- The promotion target of one usable (post-recovery) review against the
current column of patient identifiers: `some idx` exactly when the review
resolves to row `idx` and a promotion rule fires. -/
def promo_target_usable (pids : List String) (r : Json) : Option ℕ :=
  let pid := jgetD r "patient_id" Json.null
  if truthy pid then
    match pids.findIdx? (fun s => s == pyStr pid) with
    | some idx =>
      let t := review_tally r
      match promo_decision (scoreOf r "ai_score") (scoreOf r "sutherland_score")
          t.corrections t.errors t.total with
      | some _ => some idx
      | none => none
    | none => none
  else none

/-- The promotion target of one raw review (error recovery included). -/
def promo_target (pids : List String) (review : Json) : Option ℕ :=
  match effective_review review with
  | none => none
  | some r => promo_target_usable pids r

/-- The effect of one usable review on the dataframe alone. -/
def dfStepUsable (d : List Row) (r : Json) : List Row :=
  match promo_target_usable (d.map Row.patientId) r with
  | some idx => setMatch d idx
  | none => d

/-- The effect of one review on the dataframe alone. -/
def dfStep (d : List Row) (review : Json) : List Row :=
  match promo_target (d.map Row.patientId) review with
  | some idx => setMatch d idx
  | none => d

/-- The effect of the whole review list on the dataframe alone. -/
def dfFold (d : List Row) (reviews : List Json) : List Row :=
  reviews.foldl dfStep d

/-! ### `calculate_pre_review_code_accuracy` -/

/-- One entry of `patient_level_data`. -/
structure PatientCodes where
  patient_id : String
  sutherland_codes : ℕ
  ai_codes : ℕ
  correct_codes : ℕ
  missed_codes : ℕ
  extra_codes : ℕ
  accuracy_rate : ℚ

/-- The `pre_review_metrics` dictionary (every rate there is guarded, so the
function is total). -/
structure PreReviewCode where
  total_sutherland_codes : ℕ
  total_ai_codes : ℕ
  correctly_coded_by_ai : ℕ
  missed_by_ai : ℕ
  extra_by_ai : ℕ
  overall_accuracy : ℚ
  miss_rate : ℚ
  extra_rate : ℚ
  precision_rate : ℚ
  recall_rate : ℚ
  patient_level_data : List PatientCodes

/-- `AccuracyCalculator.calculate_pre_review_code_accuracy`. -/
def calculate_pre_review_code_accuracy (df : List Row) : PreReviewCode :=
  let tS := total_sutherland_codes df
  let tA := total_ai_codes df
  let tC := total_correct_codes df
  { total_sutherland_codes := tS
    total_ai_codes := tA
    correctly_coded_by_ai := tC
    missed_by_ai := total_missed_codes df
    extra_by_ai := total_extra_codes df
    overall_accuracy := if 0 < tS then (tC : ℚ) / (tS : ℚ) else 0
    miss_rate := if 0 < tS then (total_missed_codes df : ℚ) / (tS : ℚ) else 0
    extra_rate := if 0 < tA then (total_extra_codes df : ℚ) / (tA : ℚ) else 0
    precision_rate := if 0 < tA then (tC : ℚ) / (tA : ℚ) else 0
    recall_rate := if 0 < tS then (tC : ℚ) / (tS : ℚ) else 0
    patient_level_data := df.map (fun r =>
      { patient_id := r.patientId
        sutherland_codes := (sutherland_set r).card
        ai_codes := (ai_set r).card
        correct_codes := (sutherland_set r ∩ ai_set r).card
        missed_codes := (sutherland_set r \ ai_set r).card
        extra_codes := (ai_set r \ sutherland_set r).card
        accuracy_rate :=
          if 0 < (sutherland_set r).card then
            ((sutherland_set r ∩ ai_set r).card : ℚ) / ((sutherland_set r).card : ℚ)
          else 1 }) }

/-! ### `calculate_post_review_code_accuracy` -/

/-- One entry of `patient_corrections`. -/
structure PatientCorrection where
  patient_id : String
  codes_reviewed : ℕ
  ai_correct : ℕ
  sutherland_errors : ℕ
  improvement_rate : ℚ

/-- Per-review counters over the boolean correctness flags. -/
structure CodeFlagsTally where
  codes : ℕ
  ai_correct : ℕ
  errors : ℕ
  corrections : ℕ

/-- One iteration of the inner per-code loop (source lines 767-784). -/
def flags_step (t : CodeFlagsTally) (ca : Json) : CodeFlagsTally :=
  let isS := truthy (jgetD ca "is_sutherland_correct" (Json.bool false))
  let isA := truthy (jgetD ca "is_ai_correct" (Json.bool false))
  { codes := t.codes + 1
    ai_correct := t.ai_correct + (if isA then 1 else 0)
    errors := t.errors + (if isS then 0 else 1)
    corrections := t.corrections + (if isA && !isS then 1 else 0) }

/-- The accumulated counters of the review loop of
`calculate_post_review_code_accuracy`. -/
structure CodeReviewState where
  ai_correct_decisions : ℕ
  sutherland_errors_found : ℕ
  codes_reviewed : ℕ
  ai_corrections_accepted : ℕ
  patient_corrections : List PatientCorrection

/-- One iteration of the review loop of `calculate_post_review_code_accuracy`
(source lines 741-793): the same error recovery as the main engine, then the
flag tallies — note that no patient lookup gates the counting; `patient_id`
only labels the per-patient record. -/
def code_review_step (st : CodeReviewState) (review : Json) : CodeReviewState :=
  match effective_review review with
  | none => st
  | some r =>
    let pidStr := pyStr (jgetD r "patient_id" (Json.str ""))
    let t := (asArr (jgetD r "analysis" (Json.arr []))).foldl flags_step ⟨0, 0, 0, 0⟩
    { ai_correct_decisions := st.ai_correct_decisions + t.ai_correct
      sutherland_errors_found := st.sutherland_errors_found + t.errors
      codes_reviewed := st.codes_reviewed + t.codes
      ai_corrections_accepted := st.ai_corrections_accepted + t.corrections
      patient_corrections :=
        if 0 < t.codes then
          st.patient_corrections ++
            [{ patient_id := pidStr
               codes_reviewed := t.codes
               ai_correct := t.ai_correct
               sutherland_errors := t.errors
               improvement_rate := (t.ai_correct : ℚ) / (t.codes : ℚ) }]
        else st.patient_corrections }

/-- The dictionary returned by `calculate_post_review_code_accuracy`,
flattened (every rate is guarded, so the function is total). -/
structure PostReviewCode where
  codes_reviewed_by_ai : ℕ
  ai_correct_decisions : ℕ
  sutherland_errors_found : ℕ
  ai_corrections_accepted : ℕ
  corrected_accuracy : ℚ
  improvement_in_accuracy : ℚ
  error_reduction_rate : ℚ
  ai_decision_accuracy : ℚ
  original_accuracy : ℚ
  post_review_accuracy : ℚ
  net_improvement : ℚ
  relative_improvement : ℚ
  patient_corrections : List PatientCorrection

/-- `AccuracyCalculator.calculate_post_review_code_accuracy`. -/
def calculate_post_review_code_accuracy (df : List Row) (reviews : List Json) :
    PostReviewCode :=
  let pre := calculate_pre_review_code_accuracy df
  let st := reviews.foldl code_review_step ⟨0, 0, 0, 0, []⟩
  let corrected_accuracy : ℚ :=
    if 0 < st.codes_reviewed then
      (((st.codes_reviewed : ℚ) - (st.sutherland_errors_found : ℚ)) +
        (st.ai_corrections_accepted : ℚ)) / (st.codes_reviewed : ℚ)
    else 0
  let improvement_in_accuracy : ℚ :=
    if 0 < pre.total_sutherland_codes then
      (st.ai_corrections_accepted : ℚ) / (pre.total_sutherland_codes : ℚ)
    else 0
  { codes_reviewed_by_ai := st.codes_reviewed
    ai_correct_decisions := st.ai_correct_decisions
    sutherland_errors_found := st.sutherland_errors_found
    ai_corrections_accepted := st.ai_corrections_accepted
    corrected_accuracy := corrected_accuracy
    improvement_in_accuracy := improvement_in_accuracy
    error_reduction_rate :=
      if 0 < st.codes_reviewed then
        (st.sutherland_errors_found : ℚ) / (st.codes_reviewed : ℚ)
      else 0
    ai_decision_accuracy :=
      if 0 < st.codes_reviewed then
        (st.ai_correct_decisions : ℚ) / (st.codes_reviewed : ℚ)
      else 0
    original_accuracy := pre.overall_accuracy
    post_review_accuracy := pre.overall_accuracy + improvement_in_accuracy
    net_improvement := improvement_in_accuracy
    relative_improvement :=
      if 0 < pre.overall_accuracy then improvement_in_accuracy / pre.overall_accuracy
      else 0
    patient_corrections := st.patient_corrections }

/-! ### `analyze_no_match_reviews` -/

/-- `review.get('match_potential', {}).get(flag, False)` as a Bool. -/
def mpFlag (review : Json) (k : String) : Bool :=
  truthy (jgetD (jgetD review "match_potential" (Json.obj [])) k (Json.bool false))

structure NoMatchTally where
  potential_upgrades : ℕ
  to_partial_match : ℕ
  to_complete_match : ℕ
  ai_better_cases : ℕ
  sutherland_better_cases : ℕ

/-- One iteration of the no-match analysis loop (source lines 407-428): the
two upgrade flags are tested independently, each also bumping the combined
`potential_upgrades` counter. -/
def no_match_step (t : NoMatchTally) (review : Json) : NoMatchTally :=
  if hasKey review "error" then t
  else
    let t1 :=
      if mpFlag review "could_be_partial_match" then
        { t with to_partial_match := t.to_partial_match + 1
                 potential_upgrades := t.potential_upgrades + 1 }
      else t
    let t2 :=
      if mpFlag review "could_be_complete_match" then
        { t1 with to_complete_match := t1.to_complete_match + 1
                  potential_upgrades := t1.potential_upgrades + 1 }
      else t1
    let s := scoreOf review "sutherland_score"
    let a := scoreOf review "ai_score"
    if s < a then { t2 with ai_better_cases := t2.ai_better_cases + 1 }
    else if a < s then
      { t2 with sutherland_better_cases := t2.sutherland_better_cases + 1 }
    else t2

/-- The dictionary returned by `analyze_no_match_reviews`. -/
structure NoMatchAnalysis where
  total_no_match_cases : ℕ
  successful_reviews : ℕ
  potential_upgrades : ℕ
  to_partial_match : ℕ
  to_complete_match : ℕ
  ai_better_cases : ℕ
  sutherland_better_cases : ℕ
  review_success_rate : ℚ

/-- `AccuracyCalculator.analyze_no_match_reviews`. -/
def analyze_no_match_reviews (reviews : List Json) : NoMatchAnalysis :=
  let total := reviews.length
  let successful := reviews.countP (fun r => !(hasKey r "error"))
  let t := reviews.foldl no_match_step ⟨0, 0, 0, 0, 0⟩
  { total_no_match_cases := total
    successful_reviews := successful
    potential_upgrades := t.potential_upgrades
    to_partial_match := t.to_partial_match
    to_complete_match := t.to_complete_match
    ai_better_cases := t.ai_better_cases
    sutherland_better_cases := t.sutherland_better_cases
    review_success_rate := if 0 < total then (successful : ℚ) / (total : ℚ) else 0 }

/-! ### `calculate_unified_post_review_accuracy` -/

/-- The `no_match_conversions` accumulator of the unified computation. -/
structure NoMatchConversions where
  cases_reviewed : ℕ
  potential_complete_matches : ℕ
  potential_partial_matches : ℕ
  total_potential_upgrades : ℕ
  chart_level_improvement : ℚ
  complete_match_rate_improvement : ℚ
  partial_match_rate_improvement : ℚ

/-- One iteration of the unified no-match loop (source lines 637-649): here
the flags are tested with `elif`, so a case carrying both flags counts only
toward the complete side and bumps the combined counter once. -/
def unified_no_match_step (c : NoMatchConversions) (review : Json) :
    NoMatchConversions :=
  if hasKey review "error" then c
  else
    let c := { c with cases_reviewed := c.cases_reviewed + 1 }
    if mpFlag review "could_be_complete_match" then
      { c with potential_complete_matches := c.potential_complete_matches + 1
               total_potential_upgrades := c.total_potential_upgrades + 1 }
    else if mpFlag review "could_be_partial_match" then
      { c with potential_partial_matches := c.potential_partial_matches + 1
               total_potential_upgrades := c.total_potential_upgrades + 1 }
    else c

/-- The dictionary returned by `calculate_unified_post_review_accuracy`,
flattened to the values it computes (the `improvement_breakdown` sections
repeat values carried here or in `NoMatchConversions`). -/
structure UnifiedMetrics where
  original_complete_match_rate : ℚ
  original_partial_match_rate : ℚ
  original_no_match_rate : ℚ
  original_code_level_accuracy : ℚ
  complete_match_rate : ℚ
  partial_match_rate : ℚ
  no_match_rate : ℚ
  code_level_accuracy : ℚ
  chart_level_improvement : ℚ
  code_level_improvement : ℚ
  complete_match_improvement : ℚ
  partial_match_improvement : ℚ
  combined_accuracy_improvement : ℚ
  no_match_details : NoMatchConversions

/-- `AccuracyCalculator.calculate_unified_post_review_accuracy`.  `none`
models the `ZeroDivisionError` that `calculate_original_accuracy` can raise
when called on line 618. -/
def calculate_unified_post_review_accuracy (df : List Row)
    (partialReviews noMatchReviews : List Json) : Option UnifiedMetrics :=
  match calculate_original_accuracy df with
  | none => none
  | some orig =>
    let pre := calculate_pre_review_code_accuracy df
    let pmi := calculate_post_review_code_accuracy df partialReviews
    let conv0 : NoMatchConversions := ⟨0, 0, 0, 0, 0, 0, 0⟩
    let conv :=
      if noMatchReviews.isEmpty then conv0
      else
        let c := noMatchReviews.foldl unified_no_match_step conv0
        if 0 < orig.total_patients then
          { c with
            complete_match_rate_improvement :=
              (c.potential_complete_matches : ℚ) / (orig.total_patients : ℚ)
            partial_match_rate_improvement :=
              (c.potential_partial_matches : ℚ) / (orig.total_patients : ℚ)
            chart_level_improvement :=
              (c.total_potential_upgrades : ℚ) / (orig.total_patients : ℚ) }
        else c
    some
      { original_complete_match_rate := orig.complete_match_rate
        original_partial_match_rate := orig.partial_match_rate
        original_no_match_rate := orig.no_match_rate
        original_code_level_accuracy := pre.overall_accuracy
        complete_match_rate := orig.complete_match_rate + conv.complete_match_rate_improvement
        partial_match_rate := orig.partial_match_rate + conv.partial_match_rate_improvement
        no_match_rate := orig.no_match_rate - conv.chart_level_improvement
        code_level_accuracy := pre.overall_accuracy + pmi.net_improvement
        chart_level_improvement := conv.chart_level_improvement
        code_level_improvement := pmi.net_improvement
        complete_match_improvement := conv.complete_match_rate_improvement
        partial_match_improvement := conv.partial_match_rate_improvement
        combined_accuracy_improvement := conv.chart_level_improvement + pmi.net_improvement
        no_match_details := conv }

/-! ### `O3AIIntegration.robust_json_parse` and its fallback strategies

Method 1 (direct `json.loads` of the stripped text) is modelled exactly.
Methods 2-5 are regex-driven in the source; they are modelled here by
executable scanners that follow the respective regexes
(`(?:json)?\s*(\x7b.*?\x7d)\s*` between triple-backtick fences,
the one-level balanced-brace pattern, the literal clean-up of
`clean_json_text`, and the per-key extraction of `extract_key_values`),
with the deviations noted on each definition. -/

def btChar : Char := Char.ofNat 96

/-- First candidate that `json.loads(candidate.strip())` accepts. -/
def firstParse : List String → Option Json
  | [] => none
  | c :: rest =>
    match jsonLoads (pyStrip c) with
    | some v => some v
    | none => firstParse rest

def prependChar (c : Char) : List (List Char) → List (List Char)
  | [] => [[c]]
  | g :: gs => (c :: g) :: gs

/-- Split on occurrences of three consecutive backticks. -/
def splitFence : ℕ → List Char → List (List Char)
  | 0, _ => [[]]
  | _, [] => [[]]
  | fuel + 1, c :: cs =>
    if c = btChar then
      match cs with
      | c2 :: c3 :: rest =>
        if c2 = btChar ∧ c3 = btChar then [] :: splitFence fuel rest
        else prependChar c (splitFence fuel cs)
      | _ => prependChar c (splitFence fuel cs)
    else prependChar c (splitFence fuel cs)

/-- The segments between the 1st and 2nd fence, 3rd and 4th fence, … -/
def oddSegments : List (List Char) → List (List Char)
  | [] => []
  | [_] => []
  | _ :: b :: rest => b :: oddSegments rest

/-- Drop an optional case-insensitive `json` tag right after the fence. -/
def dropJsonTag (cs : List Char) : List Char :=
  match cs with
  | a :: b :: c :: d :: rest =>
    if a.toLower = 'j' ∧ b.toLower = 's' ∧ c.toLower = 'o' ∧ d.toLower = 'n' then rest
    else cs
  | _ => cs

/-- The capture of `(?:json)?\s*(\x7b.*?\x7d)\s*` inside one fenced segment:
after the optional tag and whitespace the content must open with a brace and,
up to trailing whitespace, close with one. -/
def fencedCandidate (seg : List Char) : Option String :=
  let body := dropLeadWs (dropJsonTag seg)
  match body with
  | c :: _ =>
    if c = lbraceChar then
      let core := (dropLeadWs body.reverse).reverse
      match core.getLast? with
      | some d => if d = rbraceChar then some ⟨core⟩ else none
      | none => none
    else none
  | [] => none

/-- Method 2: extract JSON from markdown code blocks (source lines 87-95). -/
def method2_fenced (s : String) : Option Json :=
  firstParse ((oddSegments (splitFence (s.length + 1) s.data)).filterMap
    (fun seg => fencedCandidate seg))

def takeNonBrace : List Char → List Char × List Char
  | [] => ([], [])
  | c :: cs =>
    if c = lbraceChar ∨ c = rbraceChar then ([], c :: cs)
    else
      let p := takeNonBrace cs
      (c :: p.1, p.2)

/-- Greedy match of `[^\x7b\x7d]*(?:\x7b[^\x7b\x7d]*\x7d[^\x7b\x7d]*)*\x7d`
(the regex of method 3 after its opening brace): one level of nesting,
returning the consumed characters (closing brace included) and the rest. -/
def braceLevel1 : ℕ → List Char → Option (List Char × List Char)
  | 0, _ => none
  | fuel + 1, cs =>
    let p := takeNonBrace cs
    match p.2 with
    | [] => none
    | c :: cs2 =>
      if c = rbraceChar then some (p.1 ++ [c], cs2)
      else
        let q := takeNonBrace cs2
        match q.2 with
        | d :: cs4 =>
          if d = rbraceChar then
            match braceLevel1 fuel cs4 with
            | some (tailSeg, rest) => some (p.1 ++ c :: q.1 ++ d :: tailSeg, rest)
            | none => none
          else none
        | [] => none

/-- `re.findall` of the balanced-brace pattern: non-overlapping matches,
scanning left to right. -/
def scanBraces : ℕ → List Char → List (List Char)
  | 0, _ => []
  | _, [] => []
  | fuel + 1, c :: cs =>
    if c = lbraceChar then
      match braceLevel1 (cs.length + 1) cs with
      | some (body, rest) => (c :: body) :: scanBraces fuel rest
      | none => scanBraces fuel cs
    else scanBraces fuel cs

/-- Method 3: balanced-brace candidates, longest first (stable, as Python's
`sort(key=len, reverse=True)`), each tried with `json.loads` (source lines
98-107). -/
def method3_braces (s : String) : Option Json :=
  firstParse (((scanBraces (s.length + 1) s.data).mergeSort
    (fun a b => b.length ≤ a.length)).map (fun cs => ⟨cs⟩))

def dropBeforeBrace : List Char → List Char
  | [] => []
  | c :: cs => if c = lbraceChar then c :: cs else dropBeforeBrace cs

def dropAfterBrace (cs : List Char) : List Char :=
  (dropUntilRBrace cs.reverse).reverse
where
  dropUntilRBrace : List Char → List Char
    | [] => []
    | c :: cs => if c = rbraceChar then c :: cs else dropUntilRBrace cs

/-- Python's `\s` class. -/
def isReWs (c : Char) : Bool :=
  isPyWs c

/-- `re.sub(r'\s+', ' ', text)`: collapse each whitespace run to one space. -/
def collapseWs : Bool → List Char → List Char
  | _, [] => []
  | prevWs, c :: cs =>
    if isReWs c then
      if prevWs then collapseWs true cs else ' ' :: collapseWs true cs
    else c :: collapseWs false cs

/-- Python `str.replace(pat, repl)`: all non-overlapping occurrences, left to
right. -/
def replaceSub : ℕ → List Char → List Char → List Char → List Char
  | 0, _, _, cs => cs
  | _, _, _, [] => []
  | fuel + 1, pat, repl, c :: cs =>
    if pat ≠ [] ∧ (c :: cs).take pat.length = pat then
      repl ++ replaceSub fuel pat repl ((c :: cs).drop pat.length)
    else c :: replaceSub fuel pat repl cs

/-- The quote-escaping rewrite of `clean_json_text`
(`re.sub` of an unescaped quote that is followed by a later quote).  The
source regex's lookahead constrains the run between the two quotes; this
model approximates it by requiring only that a later quote exists. -/
def escapeQuotes : List Char → List Char
  | [] => []
  | c :: cs =>
    if c = bsChar then
      match cs with
      | d :: rest => c :: d :: escapeQuotes rest
      | [] => [c]
    else if c = qChar ∧ cs.contains qChar then bsChar :: c :: escapeQuotes cs
    else c :: escapeQuotes cs

/-- `O3AIIntegration.clean_json_text`: cut to the outermost braces, turn
newlines/tabs into spaces, collapse whitespace, respell the literals the
Python way, escape stray quotes, strip. -/
def clean_json_text (s : String) : String :=
  let cs1 := dropBeforeBrace s.data
  let cs2 := dropAfterBrace cs1
  let cs3 := cs2.map (fun c => if c = '\n' ∨ c = '\t' then ' ' else c)
  let cs4 := collapseWs false cs3
  let s5 := replaceSub (cs4.length + 1) ": true".data ": True".data cs4
  let s6 := replaceSub (s5.length + 1) ": false".data ": False".data s5
  let s7 := replaceSub (s6.length + 1) ": null".data ": None".data s6
  pyStrip ⟨escapeQuotes s7⟩

/-- Method 4: re-attempt `json.loads` on the cleaned text when it is
non-empty (source lines 110-115). -/
def method4_cleaned (s : String) : Option Json :=
  let cleaned := clean_json_text s
  if cleaned ≠ "" then jsonLoads cleaned else none

def lowerEq (a b : Char) : Bool :=
  a.toLower = b.toLower

def startsWithCI : List Char → List Char → Bool
  | [], _ => true
  | _ :: _, [] => false
  | p :: ps, c :: cs => lowerEq p c && startsWithCI ps cs

/-- After one occurrence of `"?key"?\s*:\s*` (case-insensitive, as the source
compiles every pattern with `re.IGNORECASE`), the remaining text. -/
def afterKeyAt (key : List Char) (cs : List Char) : Option (List Char) :=
  let cs1 := match cs with
    | c :: rest => if c = qChar then rest else cs
    | [] => cs
  if startsWithCI key cs1 then
    let cs2 := cs1.drop key.length
    let cs3 := match cs2 with
      | c :: rest => if c = qChar then rest else cs2
      | [] => cs2
    match dropLeadWs cs3 with
    | ':' :: cs4 => some (dropLeadWs cs4)
    | _ => none
  else none

/-- `re.search` scan for the key pattern. -/
def findKey : ℕ → List Char → List Char → Option (List Char)
  | 0, _, _ => none
  | _, _, [] => none
  | fuel + 1, key, c :: cs =>
    match afterKeyAt key (c :: cs) with
    | some rest => some rest
    | none => findKey fuel key cs

def isValueTokenChar (c : Char) : Bool :=
  !(c = qChar || c = ',' || isReWs c)

def takeValueToken : List Char → List Char × List Char
  | [] => ([], [])
  | c :: cs =>
    if isValueTokenChar c then
      let p := takeValueToken cs
      (c :: p.1, p.2)
    else ([], c :: cs)

def takeUntilChar : ℕ → Char → List Char → Option (List Char × List Char)
  | 0, _, _ => none
  | _, _, [] => none
  | fuel + 1, stop, c :: cs =>
    if c = stop then some ([], cs)
    else
      match takeUntilChar fuel stop cs with
      | some (seg, rest) => some (c :: seg, rest)
      | none => none

/-- Method 5, `O3AIIntegration.extract_key_values`: per-key regex extraction
in the source's fixed pattern order; `analysis` always reconstructs as the
empty list, the two nested objects re-parse their first-brace content
(falling back to the empty dict), the other keys capture token/quoted-string
values. -/
def extract_key_values (s : String) : Option Json :=
  let cs := s.data
  let fuel := cs.length + 1
  let pid : Option (String × Json) :=
    match findKey fuel "patient_id".data cs with
    | some rest =>
      let rest1 := match rest with
        | c :: r => if c = qChar then r else rest
        | [] => rest
      let p := takeValueToken rest1
      if p.1 ≠ [] then some ("patient_id", Json.str ⟨p.1⟩) else none
    | none => none
  let analysisKV : Option (String × Json) :=
    match findKey fuel "analysis".data cs with
    | some ('[' :: r) =>
      if r.contains ']' then some ("analysis", Json.arr []) else none
    | _ => none
  let nested (key : String) : Option (String × Json) :=
    match findKey fuel key.data cs with
    | some (c :: r) =>
      if c = lbraceChar then
        match takeUntilChar fuel rbraceChar r with
        | some (body, _) =>
          match jsonLoads ⟨lbraceChar :: body ++ [rbraceChar]⟩ with
          | some v => some (key, v)
          | none => some (key, Json.obj [])
        | none => none
      else none
    | _ => none
  let overall : Option (String × Json) :=
    match findKey fuel "overall_assessment".data cs with
    | some (c :: r) =>
      if c = qChar then
        match takeUntilChar fuel qChar r with
        | some (body, _) => if body ≠ [] then some ("overall_assessment", Json.str ⟨body⟩) else none
        | none => none
      else none
    | _ => none
  let fields := [pid, analysisKV, nested "coding_accuracy_score",
    nested "match_potential", overall].filterMap id
  if fields.isEmpty then none else some (Json.obj fields)

/-- The three possible outcomes of `robust_json_parse`: the empty-input error
dict, a parse via the numbered strategy, or the final error dict carrying the
raw response (the error dicts' literal contents are abstracted to their
identity). -/
inductive ParseOutcome where
  | empty_input : ParseOutcome
  | parsed (strategy : ℕ) (v : Json) : ParseOutcome
  | failure : ParseOutcome

/-- `O3AIIntegration.robust_json_parse`: the five strategies tried in order,
each returning as soon as it succeeds. -/
def robust_json_parse (s : String) : ParseOutcome :=
  if s = "" ∨ pyStrip s = "" then ParseOutcome.empty_input
  else
    match jsonLoads (pyStrip s) with
    | some v => ParseOutcome.parsed 1 v
    | none =>
      match method2_fenced s with
      | some v => ParseOutcome.parsed 2 v
      | none =>
        match method3_braces s with
        | some v => ParseOutcome.parsed 3 v
        | none =>
          match method4_cleaned s with
          | some v => ParseOutcome.parsed 4 v
          | none =>
            match extract_key_values s with
            | some v => ParseOutcome.parsed 5 v
            | none => ParseOutcome.failure

/-! ### `O3AIIntegration.invoke_llm`

The endpoint list is abstracted to its length `n` and a success predicate
`ok : ℕ → Bool` on endpoint indices (the configured deployments are static,
and the two spec scenarios fix each endpoint's behaviour).  `invoke_llm`
returns the index of the endpoint that answered (`none` modelling the raised
exhaustion exception) together with the number of 10-second backoff sleeps
performed. -/

/-- One sweep (`for _ in range(len(self.llm_deployments))`): try the current
endpoint, rotating `(i + 1) % n` on failure.  Returns the successful index if
any, the cursor after the sweep, and the list of endpoint indices tried. -/
def try_sweep (ok : ℕ → Bool) (n : ℕ) : ℕ → ℕ → Option ℕ × ℕ × List ℕ
  | idx, 0 => (none, idx, [])
  | idx, tries + 1 =>
    if ok idx then (some idx, idx, [idx])
    else
      let r := try_sweep ok n ((idx + 1) % n) tries
      (r.1, r.2.1, idx :: r.2.2)

/-- The indices tried during one full sweep from the given cursor. -/
def sweep_trace (ok : ℕ → Bool) (n idx : ℕ) : List ℕ :=
  (try_sweep ok n idx n).2.2

/-- The `while cycle_count < max_cycles` loop: a failed sweep sleeps once and
starts the next cycle; exhausting all cycles raises.  Returns the result and
the sleep count. -/
def invoke_cycles (ok : ℕ → Bool) (n : ℕ) : ℕ → ℕ → Option ℕ × ℕ
  | _, 0 => (none, 0)
  | idx, cycles + 1 =>
    let s := try_sweep ok n idx n
    match s.1 with
    | some i => (some i, 0)
    | none =>
      let r := invoke_cycles ok n s.2.1 cycles
      (r.1, r.2 + 1)

/-- `O3AIIntegration.invoke_llm` with its `max_cycles = 3`. -/
def invoke_llm (ok : ℕ → Bool) (n : ℕ) (startIdx : ℕ) : Option ℕ × ℕ :=
  invoke_cycles ok n startIdx 3

/-- Non-error review counted toward the complete side by the unified `elif`. -/
def unifiedCompleteFlag (r : Json) : Bool :=
  !(hasKey r "error") && mpFlag r "could_be_complete_match"

/-- Non-error review counted toward the partial side by the unified `elif`
(partial flag set, complete flag not). -/
def unifiedPartialOnlyFlag (r : Json) : Bool :=
  !(hasKey r "error") && !(mpFlag r "could_be_complete_match") &&
    mpFlag r "could_be_partial_match"

/-- The tried indices of a full failing scan, ignoring endpoint outcomes. -/
def full_trace (n idx : ℕ) : ℕ → List ℕ
  | 0 => []
  | f + 1 => idx :: full_trace n ((idx + 1) % n) f

/-! ### Concrete inputs used by witnesses, counterexamples and the spec's
worked scenarios -/

/-- A patient with one baseline code and no AI codes. -/
def rowBaselineOnly : Row := ⟨"1", "No Match", "A", ""⟩

/-- A patient on which baseline and AI agree. -/
def rowAgree : Row := ⟨"1", "No Match", "A", "A"⟩

/-- The spec's partial-match promotion scenario: `baseline_score = 0.9`,
`ai_score = 0.95`, one analysis entry with `ai_code` set, no baseline code,
`is_ai_correct` true. -/
def revScenario : Json := Json.obj
  [("patient_id", Json.str "p1"),
   ("coding_accuracy_score", Json.obj
     [("sutherland_score", Json.num (9/10)), ("ai_score", Json.num (19/20))]),
   ("analysis", Json.arr [Json.obj [("ai_code", Json.str "X"), ("is_ai_correct", Json.bool true)]])]

/-- The partial-match dataframe for the promotion scenario. -/
def dfScenario : List Row := [⟨"p1", "Partial Match", "A,B", "A,B,X"⟩]

/-- A no-match review flagging upgrade potential to both categories. -/
def revBothFlags : Json := Json.obj
  [("match_potential", Json.obj
     [("could_be_partial_match", Json.bool true),
      ("could_be_complete_match", Json.bool true)])]

/-- A review with one analysis entry but no `patient_id` at all. -/
def revNoPid : Json := Json.obj
  [("analysis", Json.arr [Json.obj [("is_ai_correct", Json.bool true)]])]

/-- A strict JSON object string (braces written as character escapes). -/
def strictObjStr : String := "\x7b\"patient_id\": \"5\", \"analysis\": []\x7d"

/-- An error-marked review whose raw text recovers to an `analysis`-carrying
object after the control character is stripped. -/
def revErrRecoverable : Json := Json.obj
  [("error", Json.str "Failed to parse AI response"),
   ("raw_response", Json.str "\x01\x7b\"analysis\": []\x7d")]

end Onboard

namespace Onboard

/-! ## Helper lemmas about the review engine -/

theorem effective_review_no_error (review : Json) (h : hasKey review "error" = false) :
    effective_review review = some review := by
  simp [effective_review, h]

theorem effective_review_error (review : Json) (h : hasKey review "error" = true) :
    effective_review review = recover_review review := by
  simp [effective_review, h]

theorem process_review_of_effective (st : ReviewState) (review r : Json)
    (h : effective_review review = some r) :
    process_review st review = process_usable st r := by
  simp [process_review, h]

theorem process_review_of_skip (st : ReviewState) (review : Json)
    (h : effective_review review = none) :
    process_review st review = st := by
  simp [process_review, h]

theorem process_usable_no_pid (st : ReviewState) (r : Json)
    (h : truthy (jgetD r "patient_id" Json.null) = false) :
    process_usable st r = st := by
  simp [process_usable, h]

theorem process_usable_no_row (st : ReviewState) (r : Json)
    (h : (st.reviewed_df.map Row.patientId).findIdx?
      (fun s => s == pyStr (jgetD r "patient_id" Json.null)) = none) :
    process_usable st r = st := by
  by_cases hp : truthy (jgetD r "patient_id" Json.null) = true
  · simp [process_usable, hp, h]
  · simp [process_usable, hp]

theorem process_usable_promoted (st : ReviewState) (r : Json) (idx : ℕ) (why : PromoReason)
    (hpid : truthy (jgetD r "patient_id" Json.null) = true)
    (hidx : (st.reviewed_df.map Row.patientId).findIdx?
      (fun s => s == pyStr (jgetD r "patient_id" Json.null)) = some idx)
    (hpromo : promo_decision (scoreOf r "ai_score") (scoreOf r "sutherland_score")
      (review_tally r).corrections (review_tally r).errors (review_tally r).total = some why) :
    process_usable st r =
      { reviewed_df := setMatch st.reviewed_df idx
        changes_made := st.changes_made ++
          [{ patient_id := pyStr (jgetD r "patient_id" Json.null)
             original_match := "Partial Match"
             new_match := "Complete Match (Post-Review)"
             reason := why
             sutherland_errors := (review_tally r).errors
             ai_corrections := (review_tally r).corrections
             extra_codes := (review_tally r).extra
             sutherland_score := scoreOf r "sutherland_score"
             ai_score := scoreOf r "ai_score" }]
        partial_to_complete := st.partial_to_complete + 1
        sutherland_errors := st.sutherland_errors + (review_tally r).errors
        total_reviewed_codes := st.total_reviewed_codes + (review_tally r).total
        ai_corrections := st.ai_corrections + (review_tally r).corrections
        extra_codes_by_ai := st.extra_codes_by_ai + (review_tally r).extra
        corrected_codes := (review_tally r).pending.foldl
          (fun d p => dictInsert d p.1 p.2) st.corrected_codes } := by
  simp [process_usable, hpid, hidx, hpromo]

theorem process_usable_not_promoted (st : ReviewState) (r : Json) (idx : ℕ)
    (hpid : truthy (jgetD r "patient_id" Json.null) = true)
    (hidx : (st.reviewed_df.map Row.patientId).findIdx?
      (fun s => s == pyStr (jgetD r "patient_id" Json.null)) = some idx)
    (hpromo : promo_decision (scoreOf r "ai_score") (scoreOf r "sutherland_score")
      (review_tally r).corrections (review_tally r).errors (review_tally r).total = none) :
    process_usable st r =
      { st with
        sutherland_errors := st.sutherland_errors + (review_tally r).errors
        total_reviewed_codes := st.total_reviewed_codes + (review_tally r).total
        ai_corrections := st.ai_corrections + (review_tally r).corrections
        extra_codes_by_ai := st.extra_codes_by_ai + (review_tally r).extra
        corrected_codes := (review_tally r).pending.foldl
          (fun d p => dictInsert d p.1 p.2) st.corrected_codes } := by
  simp [process_usable, hpid, hidx, hpromo]

/-! ## The match-category state machine -/

theorem rowPromote_patientId (r : Row) : (rowPromote r).patientId = r.patientId := rfl

theorem rowPromote_matchResult (r : Row) : (rowPromote r).matchResult = "Complete Match" := rfl

theorem rowPromote_idem (r : Row) : rowPromote (rowPromote r) = rowPromote r := rfl

theorem setMatch_map_patientId (d : List Row) (i : ℕ) :
    (setMatch d i).map Row.patientId = d.map Row.patientId := by
  induction d generalizing i with
  | nil => rfl
  | cons r t ih =>
    cases i with
    | zero => simp [setMatch, rowPromote_patientId]
    | succ n => simp [setMatch, ih]

theorem setMatch_get? (d : List Row) (i j : ℕ) :
    (setMatch d i).get? j =
      if j = i then Option.map rowPromote (d.get? j) else d.get? j := by
  induction d generalizing i j with
  | nil => simp [setMatch]
  | cons r t ih =>
    cases i with
    | zero =>
      cases j with
      | zero => simp [setMatch]
      | succ m => simp [setMatch]
    | succ n =>
      cases j with
      | zero => simp [setMatch]
      | succ m => simpa [setMatch] using ih n m

theorem dfStepUsable_map_patientId (d : List Row) (r : Json) :
    (dfStepUsable d r).map Row.patientId = d.map Row.patientId := by
  cases h : promo_target_usable (d.map Row.patientId) r with
  | none => simp [dfStepUsable, h]
  | some idx => simp [dfStepUsable, h, setMatch_map_patientId]

theorem dfStep_map_patientId (d : List Row) (review : Json) :
    (dfStep d review).map Row.patientId = d.map Row.patientId := by
  cases h : promo_target (d.map Row.patientId) review with
  | none => simp [dfStep, h]
  | some idx => simp [dfStep, h, setMatch_map_patientId]

theorem dfFold_map_patientId (reviews : List Json) (d : List Row) :
    (dfFold d reviews).map Row.patientId = d.map Row.patientId := by
  induction reviews generalizing d with
  | nil => rfl
  | cons rev rest ih =>
    rw [dfFold, List.foldl_cons, ← dfFold, ih, dfStep_map_patientId]

theorem process_usable_df (st : ReviewState) (r : Json) :
    (process_usable st r).reviewed_df = dfStepUsable st.reviewed_df r := by
  by_cases hp : truthy (jgetD r "patient_id" Json.null) = true
  · cases hidx : (st.reviewed_df.map Row.patientId).findIdx?
        (fun s => s == pyStr (jgetD r "patient_id" Json.null)) with
    | none =>
      rw [process_usable_no_row st r hidx]
      simp [dfStepUsable, promo_target_usable, hp, hidx]
    | some idx =>
      cases hpromo : promo_decision (scoreOf r "ai_score") (scoreOf r "sutherland_score")
          (review_tally r).corrections (review_tally r).errors (review_tally r).total with
      | none =>
        rw [process_usable_not_promoted st r idx hp hidx hpromo]
        simp [dfStepUsable, promo_target_usable, hp, hidx, hpromo]
      | some why =>
        rw [process_usable_promoted st r idx why hp hidx hpromo]
        simp [dfStepUsable, promo_target_usable, hp, hidx, hpromo]
  · have hp' : truthy (jgetD r "patient_id" Json.null) = false := by
      simpa using hp
    rw [process_usable_no_pid st r hp']
    simp [dfStepUsable, promo_target_usable, hp']

theorem process_review_df (st : ReviewState) (review : Json) :
    (process_review st review).reviewed_df = dfStep st.reviewed_df review := by
  cases h : effective_review review with
  | none => rw [process_review_of_skip st review h]; simp [dfStep, promo_target, h]
  | some r =>
    rw [process_review_of_effective st review r h, process_usable_df]
    simp [dfStep, dfStepUsable, promo_target, h]

theorem process_usable_replace_df (st : ReviewState) (e : List Row) (r : Json)
    (hp : e.map Row.patientId = st.reviewed_df.map Row.patientId) :
    process_usable { st with reviewed_df := e } r =
      { process_usable st r with reviewed_df := dfStepUsable e r } := by
  by_cases ht : truthy (jgetD r "patient_id" Json.null) = true
  · cases hidx : (st.reviewed_df.map Row.patientId).findIdx?
        (fun s => s == pyStr (jgetD r "patient_id" Json.null)) with
    | none =>
      have hidx' : (({ st with reviewed_df := e } : ReviewState).reviewed_df.map
          Row.patientId).findIdx?
          (fun s => s == pyStr (jgetD r "patient_id" Json.null)) = none := by
        simpa [hp] using hidx
      rw [process_usable_no_row _ r hidx', process_usable_no_row st r hidx]
      simp [dfStepUsable, promo_target_usable, ht, hp, hidx]
    | some idx =>
      have hidx' : (({ st with reviewed_df := e } : ReviewState).reviewed_df.map
          Row.patientId).findIdx?
          (fun s => s == pyStr (jgetD r "patient_id" Json.null)) = some idx := by
        simpa [hp] using hidx
      cases hpromo : promo_decision (scoreOf r "ai_score") (scoreOf r "sutherland_score")
          (review_tally r).corrections (review_tally r).errors (review_tally r).total with
      | none =>
        rw [process_usable_not_promoted _ r idx ht hidx' hpromo,
          process_usable_not_promoted st r idx ht hidx hpromo]
        simp [dfStepUsable, promo_target_usable, ht, hp, hidx, hpromo]
      | some why =>
        rw [process_usable_promoted _ r idx why ht hidx' hpromo,
          process_usable_promoted st r idx why ht hidx hpromo]
        simp [dfStepUsable, promo_target_usable, ht, hp, hidx, hpromo]
  · have ht' : truthy (jgetD r "patient_id" Json.null) = false := by simpa using ht
    rw [process_usable_no_pid _ r ht', process_usable_no_pid st r ht']
    simp [dfStepUsable, promo_target_usable, ht']

theorem process_review_replace_df (st : ReviewState) (e : List Row) (review : Json)
    (hp : e.map Row.patientId = st.reviewed_df.map Row.patientId) :
    process_review { st with reviewed_df := e } review =
      { process_review st review with reviewed_df := dfStep e review } := by
  cases h : effective_review review with
  | none =>
    rw [process_review_of_skip _ review h, process_review_of_skip st review h]
    simp [dfStep, promo_target, h]
  | some r =>
    rw [process_review_of_effective _ review r h, process_review_of_effective st review r h,
      process_usable_replace_df st e r hp]
    simp [dfStep, dfStepUsable, promo_target, h]

theorem foldl_process_review_replace_df (reviews : List Json) (st : ReviewState)
    (e : List Row) (hp : e.map Row.patientId = st.reviewed_df.map Row.patientId) :
    reviews.foldl process_review { st with reviewed_df := e } =
      { reviews.foldl process_review st with reviewed_df := dfFold e reviews } := by
  induction reviews generalizing st e with
  | nil => simp [dfFold]
  | cons rev rest ih =>
    have hp' : (dfStep e rev).map Row.patientId =
        (process_review st rev).reviewed_df.map Row.patientId := by
      rw [dfStep_map_patientId, process_review_df, dfStep_map_patientId, hp]
    calc rest.foldl process_review (process_review { st with reviewed_df := e } rev)
        = rest.foldl process_review
            { process_review st rev with reviewed_df := dfStep e rev } := by
          rw [process_review_replace_df st e rev hp]
      _ = { rest.foldl process_review (process_review st rev) with
            reviewed_df := dfFold (dfStep e rev) rest } := ih (process_review st rev)
          (dfStep e rev) hp'
      _ = { (rev :: rest).foldl process_review st with
            reviewed_df := dfFold e (rev :: rest) } := by
          simp [dfFold]

theorem runReviews_df (df : List Row) (reviews : List Json) :
    (runReviews df reviews).reviewed_df = dfFold df reviews := by
  have h := foldl_process_review_replace_df reviews (initState df) df rfl
  rw [show ({ initState df with reviewed_df := df } : ReviewState) = initState df from rfl] at h
  rw [runReviews, h]

theorem dfStep_get? (d : List Row) (rev : Json) (j : ℕ) :
    (dfStep d rev).get? j =
      if promo_target (d.map Row.patientId) rev = some j then
        Option.map rowPromote (d.get? j)
      else d.get? j := by
  cases h : promo_target (d.map Row.patientId) rev with
  | none => simp [dfStep, h]
  | some idx =>
    simp only [dfStep, h, setMatch_get?, Option.some.injEq]
    by_cases hj : j = idx
    · simp [hj]
    · have hj' : ¬ idx = j := fun h' => hj h'.symm
      simp [hj, hj']

theorem dfFold_get? (reviews : List Json) (d : List Row) (j : ℕ) :
    (dfFold d reviews).get? j =
      if reviews.any (fun rev => promo_target (d.map Row.patientId) rev == some j) then
        Option.map rowPromote (d.get? j)
      else d.get? j := by
  induction reviews generalizing d with
  | nil => simp [dfFold]
  | cons rev rest ih =>
    have step : dfFold d (rev :: rest) = dfFold (dfStep d rev) rest := by
      simp [dfFold]
    rw [step, ih (dfStep d rev), dfStep_map_patientId, dfStep_get?]
    by_cases hc : promo_target (d.map Row.patientId) rev = some j
    · simp only [hc, if_pos rfl, List.any_cons, beq_self_eq_true, Bool.true_or, if_pos]
      by_cases h2 : rest.any (fun rv => promo_target (d.map Row.patientId) rv == some j) = true
      · simp only [h2, if_pos]
        cases d.get? j <;> simp [rowPromote_idem]
      · simp [h2]
    · have hcb : (promo_target (d.map Row.patientId) rev == some j) = false := by
        simpa using hc
      simp [hc, hcb, List.any_cons]

theorem dfFold_idem (d : List Row) (reviews : List Json) :
    dfFold (dfFold d reviews) reviews = dfFold d reviews := by
  apply List.ext_get?
  intro j
  rw [dfFold_get? reviews (dfFold d reviews) j, dfFold_map_patientId,
    dfFold_get? reviews d j]
  by_cases hc : reviews.any
      (fun rev => promo_target (d.map Row.patientId) rev == some j) = true
  · simp only [hc, if_pos]
    cases d.get? j <;> simp [rowPromote_idem]
  · simp [hc]

theorem runReviews_restart (df : List Row) (reviews : List Json) :
    runReviews (dfFold df reviews) reviews = runReviews df reviews := by
  have hp : (dfFold df reviews).map Row.patientId =
      (initState df).reviewed_df.map Row.patientId := by
    rw [dfFold_map_patientId]; rfl
  have h := foldl_process_review_replace_df reviews (initState df) (dfFold df reviews) hp
  rw [show ({ initState df with reviewed_df := dfFold df reviews } : ReviewState) =
    initState (dfFold df reviews) from rfl] at h
  rw [runReviews, h, dfFold_idem, ← runReviews_df, runReviews]

/-! ## Characterizations of the counting folds -/

theorem scoreOf_default (r : Json) (k : String)
    (h : hasKey r "coding_accuracy_score" = false) : scoreOf r k = 1/2 := by
  have h0 : jget r "coding_accuracy_score" = none := by
    cases hj : jget r "coding_accuracy_score" with
    | none => rfl
    | some v => rw [hasKey, hj] at h; simp at h
  unfold scoreOf jgetD
  rw [h0]
  simp [jget]

theorem no_match_step_partial_tally (t : NoMatchTally) (r : Json) :
    (no_match_step t r).to_partial_match =
      t.to_partial_match +
        (if !(hasKey r "error") && mpFlag r "could_be_partial_match" then 1 else 0) := by
  by_cases he : hasKey r "error" = true
  · simp [no_match_step, he]
  · simp only [Bool.not_eq_true] at he
    by_cases hp : mpFlag r "could_be_partial_match" = true <;>
      by_cases hc : mpFlag r "could_be_complete_match" = true <;>
        simp [no_match_step, he, hp, hc,
          apply_ite NoMatchTally.to_partial_match,
          apply_ite NoMatchTally.to_complete_match,
          apply_ite NoMatchTally.potential_upgrades]

theorem no_match_step_to_complete (t : NoMatchTally) (r : Json) :
    (no_match_step t r).to_complete_match =
      t.to_complete_match +
        (if !(hasKey r "error") && mpFlag r "could_be_complete_match" then 1 else 0) := by
  by_cases he : hasKey r "error" = true
  · simp [no_match_step, he]
  · simp only [Bool.not_eq_true] at he
    by_cases hp : mpFlag r "could_be_partial_match" = true <;>
      by_cases hc : mpFlag r "could_be_complete_match" = true <;>
        simp [no_match_step, he, hp, hc,
          apply_ite NoMatchTally.to_partial_match,
          apply_ite NoMatchTally.to_complete_match,
          apply_ite NoMatchTally.potential_upgrades]

theorem no_match_step_potential (t : NoMatchTally) (r : Json) :
    (no_match_step t r).potential_upgrades =
      t.potential_upgrades +
        (if !(hasKey r "error") && mpFlag r "could_be_partial_match" then 1 else 0) +
        (if !(hasKey r "error") && mpFlag r "could_be_complete_match" then 1 else 0) := by
  by_cases he : hasKey r "error" = true
  · simp [no_match_step, he]
  · simp only [Bool.not_eq_true] at he
    by_cases hp : mpFlag r "could_be_partial_match" = true <;>
      by_cases hc : mpFlag r "could_be_complete_match" = true <;>
        simp [no_match_step, he, hp, hc,
          apply_ite NoMatchTally.to_partial_match,
          apply_ite NoMatchTally.to_complete_match,
          apply_ite NoMatchTally.potential_upgrades]

theorem foldl_no_match_partial_tally (reviews : List Json) (t : NoMatchTally) :
    (reviews.foldl no_match_step t).to_partial_match =
      t.to_partial_match + reviews.countP
        (fun r => !(hasKey r "error") && mpFlag r "could_be_partial_match") := by
  induction reviews generalizing t with
  | nil => simp
  | cons r rest ih =>
    rw [List.foldl_cons, ih, no_match_step_partial_tally, List.countP_cons]
    split <;> omega

theorem foldl_no_match_to_complete (reviews : List Json) (t : NoMatchTally) :
    (reviews.foldl no_match_step t).to_complete_match =
      t.to_complete_match + reviews.countP
        (fun r => !(hasKey r "error") && mpFlag r "could_be_complete_match") := by
  induction reviews generalizing t with
  | nil => simp
  | cons r rest ih =>
    rw [List.foldl_cons, ih, no_match_step_to_complete, List.countP_cons]
    split <;> omega

theorem foldl_no_match_potential (reviews : List Json) (t : NoMatchTally) :
    (reviews.foldl no_match_step t).potential_upgrades =
      t.potential_upgrades +
        reviews.countP (fun r => !(hasKey r "error") && mpFlag r "could_be_partial_match") +
        reviews.countP (fun r => !(hasKey r "error") && mpFlag r "could_be_complete_match") := by
  induction reviews generalizing t with
  | nil => simp
  | cons r rest ih =>
    rw [List.foldl_cons, ih, no_match_step_potential, List.countP_cons, List.countP_cons]
    split <;> split <;> omega

theorem unified_step_complete (c : NoMatchConversions) (r : Json) :
    (unified_no_match_step c r).potential_complete_matches =
      c.potential_complete_matches + (if unifiedCompleteFlag r then 1 else 0) := by
  by_cases he : hasKey r "error" = true
  · simp [unified_no_match_step, unifiedCompleteFlag, he]
  · simp only [Bool.not_eq_true] at he
    by_cases hp : mpFlag r "could_be_partial_match" = true <;>
      by_cases hc : mpFlag r "could_be_complete_match" = true <;>
        simp [unified_no_match_step, unifiedCompleteFlag, he, hp, hc]

theorem unified_step_partial_tally (c : NoMatchConversions) (r : Json) :
    (unified_no_match_step c r).potential_partial_matches =
      c.potential_partial_matches + (if unifiedPartialOnlyFlag r then 1 else 0) := by
  by_cases he : hasKey r "error" = true
  · simp [unified_no_match_step, unifiedPartialOnlyFlag, he]
  · simp only [Bool.not_eq_true] at he
    by_cases hp : mpFlag r "could_be_partial_match" = true <;>
      by_cases hc : mpFlag r "could_be_complete_match" = true <;>
        simp [unified_no_match_step, unifiedPartialOnlyFlag, he, hp, hc]

theorem unified_step_total (c : NoMatchConversions) (r : Json) :
    (unified_no_match_step c r).total_potential_upgrades =
      c.total_potential_upgrades +
        (if unifiedCompleteFlag r then 1 else 0) +
        (if unifiedPartialOnlyFlag r then 1 else 0) := by
  by_cases he : hasKey r "error" = true
  · simp [unified_no_match_step, unifiedCompleteFlag, unifiedPartialOnlyFlag, he]
  · simp only [Bool.not_eq_true] at he
    by_cases hp : mpFlag r "could_be_partial_match" = true <;>
      by_cases hc : mpFlag r "could_be_complete_match" = true <;>
        simp [unified_no_match_step, unifiedCompleteFlag, unifiedPartialOnlyFlag, he, hp, hc]

theorem unified_step_rate_fields (c : NoMatchConversions) (r : Json) :
    (unified_no_match_step c r).complete_match_rate_improvement =
        c.complete_match_rate_improvement ∧
    (unified_no_match_step c r).partial_match_rate_improvement =
        c.partial_match_rate_improvement ∧
    (unified_no_match_step c r).chart_level_improvement = c.chart_level_improvement := by
  by_cases he : hasKey r "error" = true
  · simp [unified_no_match_step, he]
  · simp only [Bool.not_eq_true] at he
    by_cases hp : mpFlag r "could_be_partial_match" = true <;>
      by_cases hc : mpFlag r "could_be_complete_match" = true <;>
        simp [unified_no_match_step, he, hp, hc]

theorem foldl_unified_complete (reviews : List Json) (c : NoMatchConversions) :
    (reviews.foldl unified_no_match_step c).potential_complete_matches =
      c.potential_complete_matches + reviews.countP unifiedCompleteFlag := by
  induction reviews generalizing c with
  | nil => simp
  | cons r rest ih =>
    rw [List.foldl_cons, ih, unified_step_complete, List.countP_cons]
    split <;> omega

theorem foldl_unified_partial_tally (reviews : List Json) (c : NoMatchConversions) :
    (reviews.foldl unified_no_match_step c).potential_partial_matches =
      c.potential_partial_matches + reviews.countP unifiedPartialOnlyFlag := by
  induction reviews generalizing c with
  | nil => simp
  | cons r rest ih =>
    rw [List.foldl_cons, ih, unified_step_partial_tally, List.countP_cons]
    split <;> omega

theorem foldl_unified_total (reviews : List Json) (c : NoMatchConversions) :
    (reviews.foldl unified_no_match_step c).total_potential_upgrades =
      c.total_potential_upgrades + reviews.countP unifiedCompleteFlag +
        reviews.countP unifiedPartialOnlyFlag := by
  induction reviews generalizing c with
  | nil => simp
  | cons r rest ih =>
    rw [List.foldl_cons, ih, unified_step_total, List.countP_cons, List.countP_cons]
    split <;> split <;> omega

theorem flags_fold_codes (l : List Json) (t : CodeFlagsTally) :
    (l.foldl flags_step t).codes = t.codes + l.length := by
  induction l generalizing t with
  | nil => simp
  | cons ca rest ih =>
    rw [List.foldl_cons, ih]
    simp [flags_step]
    omega

theorem flags_fold_corrections (l : List Json) (t : CodeFlagsTally) :
    (l.foldl flags_step t).corrections =
      t.corrections + l.countP (fun ca =>
        truthy (jgetD ca "is_ai_correct" (Json.bool false)) &&
        !(truthy (jgetD ca "is_sutherland_correct" (Json.bool false)))) := by
  induction l generalizing t with
  | nil => simp
  | cons ca rest ih =>
    rw [List.foldl_cons, ih, List.countP_cons]
    simp only [flags_step]
    split <;> omega

/-! ## Lemmas about `invoke_llm` -/

theorem try_sweep_fail (ok : ℕ → Bool) (n : ℕ) (hok : ∀ i, ok i = false) :
    ∀ (fuel idx : ℕ), (try_sweep ok n idx fuel).1 = none := by
  intro fuel
  induction fuel with
  | zero => intro idx; rfl
  | succ f ih => intro idx; simp [try_sweep, hok, ih]

theorem invoke_cycles_fail (ok : ℕ → Bool) (n : ℕ) (hok : ∀ i, ok i = false) :
    ∀ (cycles idx : ℕ), invoke_cycles ok n idx cycles = (none, cycles) := by
  intro cycles
  induction cycles with
  | zero => intro idx; rfl
  | succ c ih =>
    intro idx
    rw [invoke_cycles]
    rw [show (try_sweep ok n idx n).1 = none from try_sweep_fail ok n hok n idx]
    rw [ih]

theorem try_sweep_trace_pre (ok : ℕ → Bool) (n : ℕ) :
    ∀ (fuel idx : ℕ), (try_sweep ok n idx fuel).2.2 <+: full_trace n idx fuel := by
  intro fuel
  induction fuel with
  | zero => intro idx; exact List.nil_prefix
  | succ f ih =>
    intro idx
    by_cases h : ok idx = true
    · simp only [try_sweep, h, if_pos]
      exact ⟨full_trace n ((idx + 1) % n) f, rfl⟩
    · simp only [try_sweep, h, Bool.false_eq_true, if_neg, not_false_iff]
      obtain ⟨k, hk⟩ := ih ((idx + 1) % n)
      exact ⟨k, by rw [full_trace, ← hk]; rfl⟩

theorem full_trace_eq_map (n : ℕ) (h0 : 0 < n) :
    ∀ (f idx : ℕ), idx < n →
      full_trace n idx f = (List.range f).map (fun j => (idx + j) % n) := by
  intro f
  induction f with
  | zero => intro idx _; rfl
  | succ f ih =>
    intro idx hidx
    rw [full_trace, List.range_succ_eq_map, List.map_cons,
      ih ((idx + 1) % n) (Nat.mod_lt _ h0), List.map_map]
    refine congrArg₂ _ (by rw [Nat.add_zero, Nat.mod_eq_of_lt hidx]) ?_
    apply List.map_congr_left
    intro j _
    simp only [Function.comp_apply]
    rw [Nat.mod_add_mod]
    congr 1
    omega

theorem full_trace_nodup (n idx f : ℕ) (hidx : idx < n) (hf : f ≤ n) :
    (full_trace n idx f).Nodup := by
  have h0 : 0 < n := Nat.lt_of_le_of_lt (Nat.zero_le _) hidx
  rw [full_trace_eq_map n h0 f idx hidx]
  refine List.Nodup.map_on ?_ (List.nodup_range _)
  intro x hx y hy hxy
  rw [List.mem_range] at hx hy
  have hmod : x % n = y % n :=
    Nat.ModEq.add_left_cancel' idx (hxy : (idx + x) % n = (idx + y) % n)
  rwa [Nat.mod_eq_of_lt (Nat.lt_of_lt_of_le hx hf),
    Nat.mod_eq_of_lt (Nat.lt_of_lt_of_le hy hf)] at hmod

theorem sweep_trace_nodup (ok : ℕ → Bool) (n idx : ℕ) (hidx : idx < n) :
    (sweep_trace ok n idx).Nodup :=
  List.Nodup.sublist (try_sweep_trace_pre ok n n idx).sublist
    (full_trace_nodup n idx n hidx le_rfl)

/-! ## The first parsing strategy short-circuits -/

theorem robust_json_parse_direct (s : String) (v : Json)
    (h : jsonLoads (pyStrip s) = some v) :
    robust_json_parse s = ParseOutcome.parsed 1 v := by
  have hs : ¬ pyStrip s = "" := by
    intro he
    rw [he] at h
    exact absurd h (by rw [show jsonLoads "" = none from rfl]; simp)
  have hs0 : ¬ s = "" := by
    intro he
    exact hs (by rw [he]; rfl)
  simp [robust_json_parse, hs, hs0, h]

/-! ## Characterization of `calculate_original_accuracy` and the unified rates -/

theorem calculate_original_accuracy_none_iff (df : List Row) :
    calculate_original_accuracy df = none ↔
      df.length = 0 ∨ (0 < total_sutherland_codes df ∧ total_ai_codes df = 0) := by
  unfold calculate_original_accuracy
  by_cases h1 : df.length = 0
  · simp [h1]
  · by_cases h2 : 0 < total_sutherland_codes df ∧ total_ai_codes df = 0
    · simp [h1, h2]
    · simp [h1, h2]

theorem calculate_original_accuracy_fields (df : List Row) (m : AccuracyMetrics)
    (h : calculate_original_accuracy df = some m) :
    m.total_patients = df.length ∧ 0 < df.length ∧
    m.complete_match_rate = (count_match df "Complete Match" : ℚ) / (df.length : ℚ) ∧
    m.partial_match_rate = (count_match df "Partial Match" : ℚ) / (df.length : ℚ) ∧
    m.no_match_rate = (count_match df "No Match" : ℚ) / (df.length : ℚ) ∧
    m.code_level_accuracy =
      (if 0 < total_sutherland_codes df then
        ((total_ai_codes df : ℚ) - (total_missed_codes df : ℚ)) / (total_ai_codes df : ℚ)
      else 0) := by
  unfold calculate_original_accuracy at h
  by_cases h1 : df.length = 0
  · simp [h1] at h
  · by_cases h2 : 0 < total_sutherland_codes df ∧ total_ai_codes df = 0
    · simp [h1, h2] at h
    · simp only [h1, if_false, h2, ite_false, Option.some.injEq] at h
      subst h
      exact ⟨rfl, Nat.pos_of_ne_zero h1, rfl, rfl, rfl, rfl⟩

theorem unified_rates_char (df : List Row) (pr npr : List Json) (u : UnifiedMetrics)
    (h : calculate_unified_post_review_accuracy df pr npr = some u) :
    u.complete_match_rate = u.original_complete_match_rate +
      (npr.countP unifiedCompleteFlag : ℚ) / (df.length : ℚ) ∧
    u.partial_match_rate = u.original_partial_match_rate +
      (npr.countP unifiedPartialOnlyFlag : ℚ) / (df.length : ℚ) ∧
    u.no_match_rate = u.original_no_match_rate -
      ((npr.countP unifiedCompleteFlag : ℚ) + (npr.countP unifiedPartialOnlyFlag : ℚ)) /
        (df.length : ℚ) := by
  unfold calculate_unified_post_review_accuracy at h
  cases horig : calculate_original_accuracy df with
  | none => rw [horig] at h; cases h
  | some orig =>
    rw [horig] at h
    obtain ⟨htp, hlen, _, _, _, _⟩ := calculate_original_accuracy_fields df orig horig
    by_cases hnpr : npr.isEmpty = true
    · have hne : npr = [] := by
        cases npr with
        | nil => rfl
        | cons a l => simp [List.isEmpty] at hnpr
      subst hne
      simp only [hnpr, if_pos, Option.some.injEq] at h
      subst h
      simp
    · simp only [hnpr, Bool.false_eq_true, if_neg, not_false_iff, htp,
        hlen, if_pos, Option.some.injEq] at h
      subst h
      refine ⟨?_, ?_, ?_⟩
      · simp [foldl_unified_complete]
      · simp [foldl_unified_partial_tally]
      · simp only [foldl_unified_total]
        push_cast
        ring_nf

theorem analyze_to_partial_eq (reviews : List Json) :
    (analyze_no_match_reviews reviews).to_partial_match =
      reviews.countP (fun r => !(hasKey r "error") && mpFlag r "could_be_partial_match") := by
  simp only [analyze_no_match_reviews]
  rw [foldl_no_match_partial_tally]
  simp

theorem analyze_to_complete_eq (reviews : List Json) :
    (analyze_no_match_reviews reviews).to_complete_match =
      reviews.countP (fun r => !(hasKey r "error") && mpFlag r "could_be_complete_match") := by
  simp only [analyze_no_match_reviews]
  rw [foldl_no_match_to_complete]
  simp

theorem analyze_potential_eq (reviews : List Json) :
    (analyze_no_match_reviews reviews).potential_upgrades =
      reviews.countP (fun r => !(hasKey r "error") && mpFlag r "could_be_partial_match") +
        reviews.countP (fun r => !(hasKey r "error") && mpFlag r "could_be_complete_match") := by
  simp only [analyze_no_match_reviews]
  rw [foldl_no_match_potential]
  simp

/-! ## Claims -/

/-- C1 (amended): the original accuracy computation sets
`code_level_accuracy` to `(total_ai_codes - total_missed_codes) /
total_ai_codes`, but its zero-guard tests `total_sutherland_codes`, not
`total_ai_codes`: the value is 0 whenever the baseline has no codes
(regardless of the AI count), and the computation raises (`none`) exactly on
an empty dataset or when the baseline has codes while `total_ai_codes = 0`. -/
theorem C1_original_accuracy_guard :
    (∀ df : List Row, calculate_original_accuracy df = none ↔
      df.length = 0 ∨ (0 < total_sutherland_codes df ∧ total_ai_codes df = 0)) ∧
    (∀ (df : List Row) (m : AccuracyMetrics), calculate_original_accuracy df = some m →
      m.code_level_accuracy =
        (if 0 < total_sutherland_codes df then
          ((total_ai_codes df : ℚ) - (total_missed_codes df : ℚ)) / (total_ai_codes df : ℚ)
        else 0)) :=
  ⟨fun df => calculate_original_accuracy_none_iff df,
   fun df m h => (calculate_original_accuracy_fields df m h).2.2.2.2.2⟩

/-- C1 (counterexample): on a dataset with one baseline code and no AI codes,
`total_ai_codes = 0`, yet the computation raises a `ZeroDivisionError`
(modelled `none`) instead of returning a metrics object with accuracy 0. -/
theorem C1_counterexample :
    total_ai_codes [rowBaselineOnly] = 0 ∧
    total_sutherland_codes [rowBaselineOnly] = 1 ∧
    calculate_original_accuracy [rowBaselineOnly] = none :=
  ⟨rfl, rfl, rfl⟩

/-- C1 (witness): the amended characterization applied at the concrete
one-row dataset. -/
theorem C1_witness :
    calculate_original_accuracy [rowBaselineOnly] = none :=
  (C1_original_accuracy_guard.1 [rowBaselineOnly]).mpr (Or.inr ⟨by decide, by decide⟩)

/-- C6: in the no-match analysis, the to-partial and to-complete upgrade
flags are tallied independently over the successfully parsed reviews, the
combined potential-upgrades counter is their sum (so a both-flag case
increments it twice), and the review success rate is successful results over
total cases with fallback 0; on a concrete both-flag case all three tallies
behave as stated. -/
theorem C6_no_match_tallies :
    (∀ reviews : List Json,
      (analyze_no_match_reviews reviews).to_partial_match =
        reviews.countP (fun r => !(hasKey r "error") && mpFlag r "could_be_partial_match") ∧
      (analyze_no_match_reviews reviews).to_complete_match =
        reviews.countP (fun r => !(hasKey r "error") && mpFlag r "could_be_complete_match") ∧
      (analyze_no_match_reviews reviews).potential_upgrades =
        (analyze_no_match_reviews reviews).to_partial_match +
          (analyze_no_match_reviews reviews).to_complete_match ∧
      (analyze_no_match_reviews reviews).review_success_rate =
        (if 0 < reviews.length then
          ((reviews.countP (fun r => !(hasKey r "error")) : ℚ) / (reviews.length : ℚ))
        else 0)) ∧
    ((analyze_no_match_reviews [revBothFlags]).to_partial_match = 1 ∧
     (analyze_no_match_reviews [revBothFlags]).to_complete_match = 1 ∧
     (analyze_no_match_reviews [revBothFlags]).potential_upgrades = 2) := by
  have hgen : ∀ reviews : List Json,
      (analyze_no_match_reviews reviews).to_partial_match =
        reviews.countP (fun r => !(hasKey r "error") && mpFlag r "could_be_partial_match") ∧
      (analyze_no_match_reviews reviews).to_complete_match =
        reviews.countP (fun r => !(hasKey r "error") && mpFlag r "could_be_complete_match") ∧
      (analyze_no_match_reviews reviews).potential_upgrades =
        (analyze_no_match_reviews reviews).to_partial_match +
          (analyze_no_match_reviews reviews).to_complete_match ∧
      (analyze_no_match_reviews reviews).review_success_rate =
        (if 0 < reviews.length then
          ((reviews.countP (fun r => !(hasKey r "error")) : ℚ) / (reviews.length : ℚ))
        else 0) := by
    intro reviews
    refine ⟨analyze_to_partial_eq reviews, analyze_to_complete_eq reviews, ?_, rfl⟩
    rw [analyze_potential_eq, analyze_to_partial_eq, analyze_to_complete_eq]
  refine ⟨hgen, ?_, ?_, ?_⟩
  · rw [(hgen [revBothFlags]).1]; rfl
  · rw [(hgen [revBothFlags]).2.1]; rfl
  · rw [(hgen [revBothFlags]).2.2.1, (hgen [revBothFlags]).1, (hgen [revBothFlags]).2.1]; rfl

/-- C8: the invocation manager tries each endpoint at most once per sweep
(the per-sweep trace of tried endpoint indices has no duplicates); with two
endpoints of which only the second answers, `invoke` succeeds at endpoint 1
after the single rotation `0, 1` with zero backoff sleeps; and when every
endpoint always fails, `invoke` runs its 3 sweep cycles, sleeps after each,
and raises the exhaustion error (modelled `none`) after exactly 3 sleeps. -/
theorem C8_invoke_rotation :
    (∀ (ok : ℕ → Bool) (n idx : ℕ), idx < n → (sweep_trace ok n idx).Nodup) ∧
    (∀ (ok : ℕ → Bool) (n idx i : ℕ), (try_sweep ok n idx n).1 = some i →
      invoke_llm ok n idx = (some i, 0)) ∧
    (invoke_llm (fun i => i == 1) 2 0 = (some 1, 0) ∧
      sweep_trace (fun i => i == 1) 2 0 = [0, 1]) ∧
    (∀ (ok : ℕ → Bool) (n idx : ℕ), (∀ i, ok i = false) →
      invoke_llm ok n idx = (none, 3)) := by
  refine ⟨fun ok n idx h => sweep_trace_nodup ok n idx h, ?_, ⟨rfl, rfl⟩,
    fun ok n idx hok => invoke_cycles_fail ok n hok 3 idx⟩
  intro ok n idx i h
  simp [invoke_llm, invoke_cycles, h]

/-- C8 (witness): the general parts applied with two always-failing
endpoints starting at cursor 0. -/
theorem C8_witness :
    (sweep_trace (fun _ => false) 2 0).Nodup ∧
    invoke_llm (fun i => i == 1) 2 0 = (some 1, 0) ∧
    invoke_llm (fun _ => false) 2 0 = (none, 3) :=
  ⟨C8_invoke_rotation.1 (fun _ => false) 2 0 (by decide),
   C8_invoke_rotation.2.1 (fun i => i == 1) 2 0 1 rfl,
   C8_invoke_rotation.2.2.2 (fun _ => false) 2 0 (fun _ => rfl)⟩

/-- C9: when the stripped input parses as strict JSON, `robust_json_parse`
returns exactly that parsed record via strategy 1 (direct parse), never
reaching the fallback strategies. -/
theorem C9_direct_strategy :
    ∀ (s : String) (v : Json), jsonLoads (pyStrip s) = some v →
      robust_json_parse s = ParseOutcome.parsed 1 v :=
  fun s v h => robust_json_parse_direct s v h

/-- C9 (witness): a concrete strict JSON object string parses via strategy 1
into the structurally equal record. -/
theorem C9_witness :
    robust_json_parse strictObjStr =
      ParseOutcome.parsed 1
        (Json.obj [("patient_id", Json.str "5"), ("analysis", Json.arr [])]) :=
  C9_direct_strategy strictObjStr
    (Json.obj [("patient_id", Json.str "5"), ("analysis", Json.arr [])]) rfl

theorem unified_concrete_some :
    ∃ u, calculate_unified_post_review_accuracy [rowAgree] [] [revBothFlags] = some u := by
  unfold calculate_unified_post_review_accuracy
  cases ho : calculate_original_accuracy [rowAgree] with
  | none =>
    rw [calculate_original_accuracy_none_iff] at ho
    exact absurd ho (by decide)
  | some orig => exact ⟨_, rfl⟩

/-- C2 (counterexample): for one patient and one no-match review carrying
both upgrade flags, the claim predicts a partial-rate delta of 1/1 (the case
flags partial-upgrade potential) and a no-match-rate delta of -(2/1) (the
combined tally counts the case twice); the unified computation's `elif`
instead yields partial delta 0 and no-match delta -1. -/
theorem C2_counterexample :
    (analyze_no_match_reviews [revBothFlags]).to_partial_match = 1 ∧
    (analyze_no_match_reviews [revBothFlags]).potential_upgrades = 2 ∧
    [rowAgree].length = 1 ∧
    (calculate_unified_post_review_accuracy [rowAgree] [] [revBothFlags]).map
      (fun u => u.partial_match_rate - u.original_partial_match_rate) = some 0 ∧
    (calculate_unified_post_review_accuracy [rowAgree] [] [revBothFlags]).map
      (fun u => u.no_match_rate - u.original_no_match_rate) = some (-1) ∧
    ((0 : ℚ) ≠ 1 / 1) ∧
    ((-1 : ℚ) ≠ -(2 / 1)) := by
  obtain ⟨u, hu⟩ := unified_concrete_some
  obtain ⟨h1, h2, h3⟩ := unified_rates_char [rowAgree] [] [revBothFlags] u hu
  refine ⟨?_, ?_, rfl, ?_, ?_, by norm_num, by norm_num⟩
  · rw [analyze_to_partial_eq]
    rfl
  · rw [analyze_potential_eq]
    rfl
  · rw [hu]
    simp only [Option.map_some', Option.some.injEq]
    rw [h2, show [revBothFlags].countP unifiedPartialOnlyFlag = 0 from rfl]
    push_cast
    ring
  · rw [hu]
    simp only [Option.map_some', Option.some.injEq]
    rw [h3, show [revBothFlags].countP unifiedCompleteFlag = 1 from rfl,
      show [revBothFlags].countP unifiedPartialOnlyFlag = 0 from rfl]
    norm_num

/-- C2 (amended): in the unified post-review chart rates, the no-match flags
are folded with `elif`, complete first: unified complete rate = original
complete rate + (non-error cases flagging complete upgrade / total patients);
unified partial rate = original partial rate + (non-error cases flagging
partial but not complete / total patients); unified no-match rate = original
no-match rate - (the sum of those two counts / total patients).  A case with
both flags set counts once, toward the complete delta only, so the three
unified rates sum to what the three original rates sum to. -/
theorem C2_unified_rates :
    ∀ (df : List Row) (pr npr : List Json) (u : UnifiedMetrics),
      calculate_unified_post_review_accuracy df pr npr = some u →
      u.complete_match_rate = u.original_complete_match_rate +
        (npr.countP unifiedCompleteFlag : ℚ) / (df.length : ℚ) ∧
      u.partial_match_rate = u.original_partial_match_rate +
        (npr.countP unifiedPartialOnlyFlag : ℚ) / (df.length : ℚ) ∧
      u.no_match_rate = u.original_no_match_rate -
        ((npr.countP unifiedCompleteFlag : ℚ) + (npr.countP unifiedPartialOnlyFlag : ℚ)) /
          (df.length : ℚ) ∧
      u.complete_match_rate + u.partial_match_rate + u.no_match_rate =
        u.original_complete_match_rate + u.original_partial_match_rate +
          u.original_no_match_rate := by
  intro df pr npr u h
  obtain ⟨h1, h2, h3⟩ := unified_rates_char df pr npr u h
  refine ⟨h1, h2, h3, ?_⟩
  rw [h1, h2, h3]
  ring

/-- C2 (witness): the amended rate equations hold at the concrete both-flag
input. -/
theorem C2_witness :
    (calculate_unified_post_review_accuracy [rowAgree] [] [revBothFlags]).elim False
      (fun u => u.partial_match_rate = u.original_partial_match_rate +
        ((([revBothFlags].countP unifiedPartialOnlyFlag : ℕ) : ℚ) /
          (([rowAgree].length : ℕ) : ℚ))) := by
  obtain ⟨u, hu⟩ := unified_concrete_some
  rw [hu]
  simp only [Option.elim]
  exact (C2_unified_rates [rowAgree] [] [revBothFlags] u hu).2.1

/-- C3: a usable partial-match review promotes the chart if and only if one
of the three rules fires, tried in source order — (i) AI aggregate score
above 0.8 and strictly above the baseline score; else (ii) strictly more
accepted AI corrections than baseline errors; else (iii) positive reviewed
codes with baseline error rate below 0.2 — and the spec's worked scenario
(scores 0.9 / 0.95, one AI-only correct entry) accepts one AI correction and
promotes via rule (i). -/
theorem C3_promotion_rules :
    (∀ (aS sS : ℚ) (c e t : ℕ),
      (promo_decision aS sS c e t).isSome = true ↔
        ((4/5 : ℚ) < aS ∧ sS < aS) ∨ e < c ∨ (0 < t ∧ (e : ℚ) / (t : ℚ) < 1/5)) ∧
    (∀ (aS sS : ℚ) (c e t : ℕ), (4/5 : ℚ) < aS → sS < aS →
      promo_decision aS sS c e t = some PromoReason.aiMoreAccurate) ∧
    (∀ (aS sS : ℚ) (c e t : ℕ), ¬((4/5 : ℚ) < aS ∧ sS < aS) → e < c →
      promo_decision aS sS c e t = some PromoReason.moreCorrections) ∧
    (∀ (aS sS : ℚ) (c e t : ℕ), ¬((4/5 : ℚ) < aS ∧ sS < aS) → ¬(e < c) →
      0 < t → (e : ℚ) / (t : ℚ) < 1/5 →
      promo_decision aS sS c e t = some PromoReason.lowErrorRate) ∧
    (∀ (st : ReviewState) (r : Json) (idx : ℕ),
      truthy (jgetD r "patient_id" Json.null) = true →
      (st.reviewed_df.map Row.patientId).findIdx?
        (fun s => s == pyStr (jgetD r "patient_id" Json.null)) = some idx →
      ((process_usable st r).partial_to_complete = st.partial_to_complete + 1 ↔
        (promo_decision (scoreOf r "ai_score") (scoreOf r "sutherland_score")
          (review_tally r).corrections (review_tally r).errors
          (review_tally r).total).isSome = true)) ∧
    ((runReviews dfScenario [revScenario]).ai_corrections = 1 ∧
     (runReviews dfScenario [revScenario]).changes_made.map (fun ch => ch.reason) =
        [PromoReason.aiMoreAccurate] ∧
     (runReviews dfScenario [revScenario]).reviewed_df.map (fun r => r.matchResult) =
        ["Complete Match"]) := by
  refine ⟨?_, ?_, ?_, ?_, ?_, ?_⟩
  · intro aS sS c e t
    unfold promo_decision
    by_cases h1 : (4/5 : ℚ) < aS ∧ sS < aS
    · simp [h1]
    · by_cases h2 : e < c
      · simp [h1, h2]
      · by_cases h3 : 0 < t ∧ (e : ℚ) / (t : ℚ) < 1/5
        · simp [h1, h2, h3]
        · simp [h1, h2, h3]
  · intro aS sS c e t ha hb
    simp [promo_decision, ha, hb]
  · intro aS sS c e t h1 h2
    simp [promo_decision, h1, h2]
  · intro aS sS c e t h1 h2 h3 h4
    unfold promo_decision
    rw [if_neg h1, if_neg h2, if_pos ⟨h3, h4⟩]
  · intro st r idx hpid hidx
    cases hpromo : promo_decision (scoreOf r "ai_score") (scoreOf r "sutherland_score")
        (review_tally r).corrections (review_tally r).errors (review_tally r).total with
    | none =>
      rw [process_usable_not_promoted st r idx hpid hidx hpromo]
      simp
    | some why =>
      rw [process_usable_promoted st r idx why hpid hidx hpromo]
      simp
  · have hpromo : promo_decision (scoreOf revScenario "ai_score")
        (scoreOf revScenario "sutherland_score") (review_tally revScenario).corrections
        (review_tally revScenario).errors (review_tally revScenario).total =
        some PromoReason.aiMoreAccurate := by
      rw [show scoreOf revScenario "ai_score" = 19/20 from rfl,
        show scoreOf revScenario "sutherland_score" = 9/10 from rfl,
        show review_tally revScenario =
          ⟨1, 0, 1, 1, [(Json.str "X", Json.str "should_code")]⟩ from rfl]
      norm_num [promo_decision]
    have hrun : runReviews dfScenario [revScenario] =
        process_usable (initState dfScenario) revScenario := rfl
    rw [hrun, process_usable_promoted (initState dfScenario) revScenario 0
      PromoReason.aiMoreAccurate rfl rfl hpromo]
    refine ⟨?_, ?_, ?_⟩
    · rfl
    · rfl
    · rfl

/-- C3 (witness): the rule-(i) branch applied at the scenario's scores and
tallies. -/
theorem C3_witness :
    promo_decision (19/20) (9/10) 1 0 1 = some PromoReason.aiMoreAccurate :=
  C3_promotion_rules.2.1 (19/20) (9/10) 1 0 1 (by norm_num) (by norm_num)

/-- C4: the reconciliation engine only ever rewrites a row into its promoted
copy (`Match Result` set to the complete label, every other column kept), so
the only possible transition enters the complete state and a complete chart
is never demoted; the engine's dataframe is the decision-fold of the
original, and re-running the whole engine on its own output with the same
adjudication inputs reproduces the identical state — promotion decisions,
change log and counters included. -/
theorem C4_match_category_machine :
    (∀ (d : List Row) (reviews : List Json) (j : ℕ),
      (dfFold d reviews).get? j = d.get? j ∨
      (dfFold d reviews).get? j = Option.map rowPromote (d.get? j)) ∧
    (∀ r : Row, (rowPromote r).matchResult = "Complete Match" ∧
      (rowPromote r).patientId = r.patientId ∧
      (rowPromote r).smcCoded = r.smcCoded ∧
      (rowPromote r).rapidclaimsCodes = r.rapidclaimsCodes) ∧
    (∀ r : Row, r.matchResult = "Complete Match" → rowPromote r = r) ∧
    (∀ (df : List Row) (reviews : List Json),
      (runReviews df reviews).reviewed_df = dfFold df reviews) ∧
    (∀ (df : List Row) (reviews : List Json),
      runReviews ((runReviews df reviews).reviewed_df) reviews =
        runReviews df reviews) := by
  refine ⟨?_, ?_, ?_, ?_, ?_⟩
  · intro d reviews j
    rw [dfFold_get?]
    by_cases h : reviews.any
        (fun rev => promo_target (d.map Row.patientId) rev == some j) = true
    · right; simp [h]
    · left; simp [h]
  · intro r
    exact ⟨rfl, rfl, rfl, rfl⟩
  · intro r h
    cases r
    simp_all [rowPromote]
  · exact runReviews_df
  · intro df reviews
    rw [runReviews_df]
    exact runReviews_restart df reviews

/-- C4 (witness): a chart already in the complete state is untouched by
promotion. -/
theorem C4_witness :
    rowPromote ⟨"1", "Complete Match", "A", "A"⟩ = ⟨"1", "Complete Match", "A", "A"⟩ :=
  C4_match_category_machine.2.2.1 ⟨"1", "Complete Match", "A", "A"⟩ rfl

/-- C5 (amended): in `calculate_post_ai_review_accuracy` a result whose
patient id is falsy or matches no row is skipped entirely (the state is
unchanged), but `calculate_post_review_code_accuracy` never filters on the
patient id: every usable result's analysis entries enter the reviewed-code
and accepted-correction counts regardless of the id. -/
theorem C5_missing_identifier :
    (∀ (st : ReviewState) (review r : Json), effective_review review = some r →
      truthy (jgetD r "patient_id" Json.null) = false →
      process_review st review = st) ∧
    (∀ (st : ReviewState) (review r : Json), effective_review review = some r →
      (st.reviewed_df.map Row.patientId).findIdx?
        (fun s => s == pyStr (jgetD r "patient_id" Json.null)) = none →
      process_review st review = st) ∧
    (∀ (st : CodeReviewState) (review r : Json), effective_review review = some r →
      (code_review_step st review).codes_reviewed =
        st.codes_reviewed + (asArr (jgetD r "analysis" (Json.arr []))).length ∧
      (code_review_step st review).ai_corrections_accepted =
        st.ai_corrections_accepted +
          (asArr (jgetD r "analysis" (Json.arr []))).countP
            (fun ca => truthy (jgetD ca "is_ai_correct" (Json.bool false)) &&
              !(truthy (jgetD ca "is_sutherland_correct" (Json.bool false))))) := by
  refine ⟨?_, ?_, ?_⟩
  · intro st review r h hfalsy
    rw [process_review_of_effective st review r h]
    exact process_usable_no_pid st r hfalsy
  · intro st review r h hnone
    rw [process_review_of_effective st review r h]
    exact process_usable_no_row st r hnone
  · intro st review r h
    constructor
    · simp only [code_review_step, h]
      rw [flags_fold_codes]
      simp
    · simp only [code_review_step, h]
      rw [flags_fold_corrections]
      simp

/-- C5 (counterexample): a review with one analysis entry and no
`patient_id` key still contributes one reviewed code and one accepted AI
correction to `calculate_post_review_code_accuracy`, contradicting the claim
that such results contribute nothing in every reconciliation layer. -/
theorem C5_counterexample :
    hasKey revNoPid "patient_id" = false ∧
    (calculate_post_review_code_accuracy [rowAgree] [revNoPid]).codes_reviewed_by_ai = 1 ∧
    (calculate_post_review_code_accuracy [rowAgree] [revNoPid]).ai_corrections_accepted = 1 :=
  ⟨rfl, rfl, rfl⟩

/-- C5 (witness): the skip rule and the id-independent counting applied at
concrete inputs. -/
theorem C5_witness :
    process_review (initState [rowAgree]) (Json.obj [("analysis", Json.arr [])]) =
      initState [rowAgree] ∧
    (code_review_step ⟨0, 0, 0, 0, []⟩ revNoPid).codes_reviewed = 1 := by
  constructor
  · exact C5_missing_identifier.1 (initState [rowAgree])
      (Json.obj [("analysis", Json.arr [])]) (Json.obj [("analysis", Json.arr [])]) rfl rfl
  · rw [(C5_missing_identifier.2.2 ⟨0, 0, 0, 0, []⟩ revNoPid revNoPid rfl).1]
    rfl

/-- C7: a partial-match review carrying an error marker and a non-empty raw
text gets exactly one recovery pass — control characters stripped, the text
parsed, and the parsed object substituted for the review if and only if the
parse succeeds and carries an `analysis` key; in every other situation the
review is skipped and the state is returned unchanged (never an abort). -/
theorem C7_error_recovery :
    (∀ (st : ReviewState) (review : Json) (s : String) (p : Json),
      hasKey review "error" = true →
      jget review "raw_response" = some (Json.str s) → s ≠ "" →
      jsonLoads (strip_control_chars s) = some p → hasKey p "analysis" = true →
      process_review st review = process_usable st p) ∧
    (∀ (st : ReviewState) (review : Json) (s : String) (p : Json),
      hasKey review "error" = true →
      jget review "raw_response" = some (Json.str s) → s ≠ "" →
      jsonLoads (strip_control_chars s) = some p → hasKey p "analysis" = false →
      process_review st review = st) ∧
    (∀ (st : ReviewState) (review : Json) (s : String),
      hasKey review "error" = true →
      jget review "raw_response" = some (Json.str s) → s ≠ "" →
      jsonLoads (strip_control_chars s) = none →
      process_review st review = st) ∧
    (∀ (st : ReviewState) (review : Json),
      hasKey review "error" = true →
      (jget review "raw_response" = some (Json.str "") ∨
       jget review "raw_response" = some Json.null ∨
       jget review "raw_response" = none) →
      process_review st review = st) := by
  refine ⟨?_, ?_, ?_, ?_⟩
  · intro st review s p herr hraw hs hparse hana
    simp [process_review, effective_review, herr, recover_review, hraw, hs, hparse, hana]
  · intro st review s p herr hraw hs hparse hana
    simp [process_review, effective_review, herr, recover_review, hraw, hs, hparse, hana]
  · intro st review s herr hraw hs hparse
    simp [process_review, effective_review, herr, recover_review, hraw, hs, hparse]
  · intro st review herr hraw
    rcases hraw with h | h | h <;>
      simp [process_review, effective_review, herr, recover_review, h]

/-- C7 (witness): a concrete error review with a control character in its
raw text recovers to the parsed object, which (lacking a patient id) is then
skipped without error. -/
theorem C7_witness :
    process_review (initState [rowAgree]) revErrRecoverable =
      process_usable (initState [rowAgree]) (Json.obj [("analysis", Json.arr [])]) ∧
    process_review (initState [rowAgree]) revErrRecoverable = initState [rowAgree] := by
  have h1 := C7_error_recovery.1 (initState [rowAgree]) revErrRecoverable
    "\x01\x7b\"analysis\": []\x7d" (Json.obj [("analysis", Json.arr [])])
    rfl rfl (by decide) rfl rfl
  refine ⟨h1, ?_⟩
  rw [h1]
  exact process_usable_no_pid (initState [rowAgree]) (Json.obj [("analysis", Json.arr [])]) rfl

/-- C10: a usable review without a `coding_accuracy_score` object defaults
both aggregate scores to 0.5, and if its analysis list is also empty no
promotion rule fires: processing it returns the state — and hence the
patient's chart — unchanged. -/
theorem C10_default_scores :
    ∀ (st : ReviewState) (r : Json),
      hasKey r "error" = false →
      hasKey r "coding_accuracy_score" = false →
      asArr (jgetD r "analysis" (Json.arr [])) = [] →
      scoreOf r "sutherland_score" = 1/2 ∧ scoreOf r "ai_score" = 1/2 ∧
      process_review st r = st := by
  intro st r herr hscore hana
  have hs1 := scoreOf_default r "sutherland_score" hscore
  have hs2 := scoreOf_default r "ai_score" hscore
  have htally : review_tally r = ⟨0, 0, 0, 0, []⟩ := by
    rw [review_tally, hana]
    rfl
  have hpromo : promo_decision (scoreOf r "ai_score") (scoreOf r "sutherland_score")
      (review_tally r).corrections (review_tally r).errors (review_tally r).total = none := by
    rw [hs1, hs2, htally]
    norm_num [promo_decision]
  refine ⟨hs1, hs2, ?_⟩
  rw [process_review_of_effective st r r (effective_review_no_error r herr)]
  by_cases hp : truthy (jgetD r "patient_id" Json.null) = true
  · cases hidx : (st.reviewed_df.map Row.patientId).findIdx?
        (fun s => s == pyStr (jgetD r "patient_id" Json.null)) with
    | none => exact process_usable_no_row st r hidx
    | some idx =>
      rw [process_usable_not_promoted st r idx hp hidx hpromo, htally]
      cases st
      simp
  · exact process_usable_no_pid st r (by simpa using hp)

/-- C10 (witness): the empty review object has both defaults and leaves the
state untouched. -/
theorem C10_witness :
    scoreOf (Json.obj []) "ai_score" = 1/2 ∧
    process_review (initState [rowAgree]) (Json.obj []) = initState [rowAgree] := by
  have h := C10_default_scores (initState [rowAgree]) (Json.obj []) rfl rfl rfl
  exact ⟨h.2.1, h.2.2⟩

end Onboard
